import Mathlib

set_option maxRecDepth 4000

/-!
Verification of the don-highlights core: a shallow embedding of the text
index (`TextContent`), the highlight renderer (`HighlightRenderer`) and the
navigation cursor (`Cursor`), together with proofs of the specified
invariants (marker contiguity, binary-search offset lookup, node splitting,
multi-node wrapping, cursor wraparound and error handling).

JS strings are modelled as `List Char`; machine integers that can go
negative (offsets passed in by callers) are modelled as `Int`; DOM text
nodes carry an identity tag (`id`) so that reference comparisons (`===`)
and sibling insertion relative to a node can be expressed.
-/

/-- JS string, modelled as a list of UTF-16-ish characters. -/
abbrev Str := List Char

/-- A DOM text node: an identity plus its `nodeValue`. -/
structure TextNode where
  id : Nat
  value : Str
  deriving Repr, DecidableEq, Inhabited

/-- Marker descriptor from `TextContent`: `{ node, offset }` where `offset`
is the global character offset of the node's first character. -/
structure Marker where
  node : TextNode
  offset : Nat
  deriving Repr, DecidableEq, Inhabited

/-- Errors observable from the embedded JS code: a thrown `Error` with a
message (validation error), or a runtime `TypeError` (reading a property of
`undefined`). -/
inductive JsErr where
  | validation (msg : String)
  | typeError
  deriving Repr, DecidableEq

/-- An entry of the flat, document-ordered sequence of text nodes: either a
raw text node or a text node wrapped in a highlight `span` element. -/
inductive DocElem where
  | raw (n : TextNode)
  | wrapped (n : TextNode)
  deriving Repr, DecidableEq

/-- The text node held by a document entry. -/
def DocElem.node : DocElem → TextNode
  | .raw n => n
  | .wrapped n => n

/-- The document: the flat sequence of text nodes in document (pre-order)
order, plus a counter supplying identities for freshly created nodes
(`document.createTextNode`). -/
structure World where
  doc : List DocElem
  nextId : Nat
  deriving Repr, DecidableEq

/-- `dom.insertBefore(n, old)`: insert `n` as sibling directly before the
element whose node has identity `tid`. -/
def insertBeforeId (n : TextNode) (tid : Nat) : List DocElem → List DocElem
  | [] => []
  | e :: rest =>
    if e.node.id = tid then .raw n :: e :: rest else e :: insertBeforeId n tid rest

/-- `dom.insertAfter(n, ref)`: insert `n` as sibling directly after the
element whose node has identity `tid`. -/
def insertAfterId (n : TextNode) (tid : Nat) : List DocElem → List DocElem
  | [] => []
  | e :: rest =>
    if e.node.id = tid then e :: .raw n :: rest else e :: insertAfterId n tid rest

/-- `old.parentNode.removeChild(old)`: remove the (first) element whose node
has identity `tid`. -/
def removeById (tid : Nat) : List DocElem → List DocElem
  | [] => []
  | e :: rest => if e.node.id = tid then rest else e :: removeById tid rest

/-- DOM sub-tree handed to `TextContent.parse`: text nodes and elements
with a tag name and ordered children. -/
inductive DomNode where
  | text (n : TextNode)
  | element (tag : String) (children : List DomNode)

/-- The `IGNORE_TAGNAMES` set of `TextContent.js`: elements whose text is
never rendered by the browser. -/
def IGNORE_TAGNAMES : List String :=
  ["HTML", "HEAD", "META", "SCRIPT", "STYLE", "CANVAS", "IFRAME", "SVG", "AUDIO", "VIDEO"]

/-- The mutable state of a `TextContent` instance: the flattened text and
the markers array. -/
structure TextContentS where
  text : Str
  markers : List Marker
  deriving Repr, DecidableEq

namespace TextContent

/-- The state after `new TextContent(root)`: empty text, empty markers. -/
def empty : TextContentS := ⟨[], []⟩

/-- `TextContent.dispose`. -/
def dispose (_tcs : TextContentS) : TextContentS := ⟨[], []⟩

mutual

/-- `TextContent._visit(node, offset)`: records a marker for every
non-empty text node and appends its content (or an equal run of spaces when
the parent's tag is in `IGNORE_TAGNAMES`) to the flattened text, returning
the advanced offset.  `pt` is the tag name of the node's parent element. -/
def visitNode (pt : String) (st : TextContentS) (off : Nat) : DomNode → TextContentS × Nat
  | .text n =>
    let length := n.value.length
    if length < 1 then (st, off)
    else
      ({ text := st.text ++ (if pt ∈ IGNORE_TAGNAMES then List.replicate length ' ' else n.value),
         markers := st.markers ++ [⟨n, off⟩] }, off + length)
  | .element tag cs => visitChildren tag st off cs

/-- Child loop of `TextContent._visit`. -/
def visitChildren (tag : String) (st : TextContentS) (off : Nat) :
    List DomNode → TextContentS × Nat
  | [] => (st, off)
  | c :: cs =>
    let r := visitNode tag st off c
    visitChildren tag r.1 r.2 cs

end

/-- `TextContent.parse()`: reset state and visit the root. -/
def parse (root : DomNode) : TextContentS :=
  (visitNode "" ⟨[], []⟩ 0 root).1

/-- The binary-search loop of `TextContent.indexOf`: narrows `[mn, mx]`
until `mn = mx`; reading past the end of the array is a `TypeError`. -/
def bsearch (ms : List Marker) (target : Int) (mn mx : Nat) : Except JsErr Nat :=
  if _h : mn < mx then
    let mid := (mn + mx) / 2
    match ms.get? mid with
    | none => .error .typeError
    | some m =>
      if (m.offset : Int) < target then bsearch ms target (mid + 1) mx
      else bsearch ms target mn mid
  else .ok mn
termination_by mx - mn
decreasing_by
  · simp only [Nat.lt_iff_add_one_le] at _h ⊢
    omega
  · omega

/-- `TextContent.indexOf(offset)`: binary search over the markers array. -/
def indexOf (tcs : TextContentS) (offset : Int) : Except JsErr Nat := do
  let ms := tcs.markers
  let mn ← bsearch ms offset 0 (ms.length - 1)
  match ms.get? mn with
  | none => .error .typeError
  | some m =>
    if (m.offset : Int) ≤ offset then .ok mn
    else if mn = 0 then .error (.validation "Invalid offset of text content state")
    else .ok (mn - 1)

/-- `TextContent.truncate(marker, start, end)`: split the text node given
by `marker` into up to three nodes, keeping the markers array and the
document in sync; returns the index of the marker holding `[start, end]`.
Array splices are written as `take ++ inserted ++ drop`. -/
def truncate (tcs : TextContentS) (w : World) (marker : Marker) (start end_ : Int) :
    Except JsErr (TextContentS × World × Nat) := do
  let old := marker.node
  let text := old.value
  let index ← indexOf tcs (marker.offset : Int)
  if start < 0 ∨ end_ < 0 ∨ start > end_ then
    .error (.validation "Invalid truncation parameters")
  else if (text.length : Int) ≤ end_ then
    .error (.validation "End offset overflow")
  else
    let s := start.toNat
    let e := end_.toNat
    -- Chars 0 .. start-1: new node inserted before the old one, new marker
    -- entry spliced in at the current array position.
    let step1 : List Marker × World × Nat :=
      if 0 < s then
        let ln : TextNode := ⟨w.nextId, text.take s⟩
        (tcs.markers.take index ++ [⟨ln, marker.offset⟩] ++ tcs.markers.drop index,
         ⟨insertBeforeId ln old.id w.doc, w.nextId + 1⟩,
         index + 1)
      else (tcs.markers, w, index)
    let ms1 := step1.1
    let w1 := step1.2.1
    let index1 := step1.2.2
    -- Chars start .. end: the existing marker entry is updated in place
    -- (offset += start, node replaced by the new [start..end] node).
    let mid : TextNode := ⟨w1.nextId, (text.drop s).take (e - s + 1)⟩
    let ms2 := ms1.take index1 ++ [⟨mid, marker.offset + s⟩] ++ ms1.drop (index1 + 1)
    let w2 : World := ⟨insertBeforeId mid old.id w1.doc, w1.nextId + 1⟩
    -- Chars end+1 .. length-1: remainder node inserted after the middle
    -- node, marker entry spliced in after the current one.
    if e ≠ text.length - 1 then
      if ms2.length ≤ index1 then
        .error (.validation "Detected invalid index")
      else
        let rn : TextNode := ⟨w2.nextId, text.drop (e + 1)⟩
        let ms3 := ms2.take (index1 + 1) ++ [⟨rn, marker.offset + s + (e - s + 1)⟩]
          ++ ms2.drop (index1 + 1)
        let w3 : World := ⟨insertAfterId rn mid.id w2.doc, w2.nextId + 1⟩
        .ok (⟨tcs.text, ms3⟩, ⟨removeById old.id w3.doc, w3.nextId⟩, index1)
    else
      .ok (⟨tcs.text, ms2⟩, ⟨removeById old.id w2.doc, w2.nextId⟩, index1)

end TextContent

/-!
## The contiguity invariant

`tiles a ms c` says that the markers `ms` exactly tile the half-open global
offset interval `[a, c)`: the first marker starts at `a`, each subsequent
marker starts where the previous node ends, and the last node ends at `c`.
This is the invariant asserted by `TextContent.assert` together with the
fact that a freshly parsed index starts at offset `0` and ends at the
length of the flattened text.
-/

/-- `ms` exactly tiles the global offset interval `[a, c)`. -/
def tiles : Nat → List Marker → Nat → Prop
  | a, [], c => c = a
  | a, m :: rest, c => m.offset = a ∧ tiles (a + m.node.value.length) rest c

instance instDecidableTiles : (a : Nat) → (ms : List Marker) → (c : Nat) → Decidable (tiles a ms c)
  | _, [], _ => by unfold tiles; infer_instance
  | a, m :: rest, c => by
    unfold tiles
    have := instDecidableTiles (a + m.node.value.length) rest c
    infer_instance

/-- Well-formedness of a `TextContent` state: the markers exactly tile
`[0, text.length)` and every indexed node is non-empty (parse skips empty
text nodes). -/
def TCwf (tcs : TextContentS) : Prop :=
  tiles 0 tcs.markers tcs.text.length ∧ ∀ m ∈ tcs.markers, m.node.value ≠ []

/-- The markers that `truncate` splices in place of the truncated marker:
an optional left remainder, the isolated `[s, e]` node, and an optional
right remainder, with node identities drawn from `nid` onwards. -/
def truncSeg (m : Marker) (nid : Nat) (s e : Nat) : List Marker :=
  (if 0 < s then [⟨⟨nid, m.node.value.take s⟩, m.offset⟩] else [])
    ++ [⟨⟨nid + (if 0 < s then 1 else 0), (m.node.value.drop s).take (e - s + 1)⟩,
        m.offset + s⟩]
    ++ (if e + 1 < m.node.value.length then
        [⟨⟨nid + (if 0 < s then 2 else 1), m.node.value.drop (e + 1)⟩,
          m.offset + s + (e - s + 1)⟩]
      else [])

/-- The document-side effect of `truncate`: the same node insertions and
the removal of the old node, with the same identity bookkeeping. -/
def truncWorld (m : Marker) (w : World) (s e : Nat) : World :=
  let old := m.node
  let text := old.value
  let w1 : World :=
    if 0 < s then ⟨insertBeforeId ⟨w.nextId, text.take s⟩ old.id w.doc, w.nextId + 1⟩ else w
  let mid : TextNode := ⟨w1.nextId, (text.drop s).take (e - s + 1)⟩
  let w2 : World := ⟨insertBeforeId mid old.id w1.doc, w1.nextId + 1⟩
  if e + 1 < text.length then
    let rn : TextNode := ⟨w2.nextId, text.drop (e + 1)⟩
    ⟨removeById old.id (insertAfterId rn mid.id w2.doc), w2.nextId + 1⟩
  else
    ⟨removeById old.id w2.doc, w2.nextId⟩

/-- A sequence of `truncate` calls, each given by the array position of the
marker to truncate and the `start`/`end` arguments. -/
def runTruncs :
    TextContentS × World → List (Nat × Int × Int) → Except JsErr (TextContentS × World)
  | st, [] => .ok st
  | (tcs, w), c :: rest =>
    match tcs.markers.get? c.1 with
    | none => .error (.validation "marker not in array")
    | some m => do
      let r ← TextContent.truncate tcs w m c.2.1 c.2.2
      runTruncs (r.1, r.2.1) rest

mutual

/-- Specification-side restatement of the flattened text (used to compare
`parse` against the spec's words): the concatenation, in pre-order, of
every text node's content, with never-rendered parents' text replaced by an
equal run of spaces and empty nodes contributing nothing. -/
def flattenSpecNode (pt : String) : DomNode → Str
  | .text n =>
    if n.value.length < 1 then []
    else if pt ∈ IGNORE_TAGNAMES then List.replicate n.value.length ' '
    else n.value
  | .element tag cs => flattenSpecList tag cs

/-- List version of `flattenSpecNode`. -/
def flattenSpecList (tag : String) : List DomNode → Str
  | [] => []
  | c :: cs => flattenSpecNode tag c ++ flattenSpecList tag cs

end

mutual

/-- The non-empty text nodes of a subtree, in pre-order. -/
def nonEmptyTextNodes : DomNode → List TextNode
  | .text n => if n.value.length < 1 then [] else [n]
  | .element _ cs => nonEmptyTextNodesList cs

/-- List version of `nonEmptyTextNodes`. -/
def nonEmptyTextNodesList : List DomNode → List TextNode
  | [] => []
  | c :: cs => nonEmptyTextNodes c ++ nonEmptyTextNodesList cs

end

/-!
## Cursor: navigation over the highlight registry

`HighlightMarkers`, `HighlightDecorator`, `Highlight` and `dom.isInView`
are not part of the sources; the registry view and the element/viewport
side of the world are modelled from the spec (§6 Registry interface), and
observable side effects (decorator calls, scrolling, caught callback
errors) are recorded in a trace.
-/

/-- A rendered highlight element; `inView` is the oracle for
`dom.isInView`. -/
structure Elem where
  inView : Bool
  deriving Repr, DecidableEq, Inhabited

/-- A highlight: its query-set (group) name and its wrapper elements. -/
structure Highlight where
  group : String
  elements : List Elem
  deriving Repr, DecidableEq, Inhabited

/-- Cursor state: virtual index (−1 = unset), cached total, active
highlight reference. -/
structure CState where
  index : Int
  total : Nat
  active : Option Highlight
  deriving Repr, DecidableEq

/-- Trace of the observable side effects of one navigation call. -/
structure Trace where
  scrollToCalls : Nat := 0
  scrollErrors : Nat := 0
  scrollIntoViewCalls : Nat := 0
  setActiveCalls : Nat := 0
  setInactiveCalls : Nat := 0
  deriving Repr, DecidableEq

/-- The empty trace. -/
def Trace.init : Trace := {}

/-- A custom reveal/scroll callback, which may throw. -/
def ScrollCb : Type := Elem → Except String Unit

namespace Cursor

/-- Modelled from the spec: the registry's ordered view filtered by an
optional set of group names (`HighlightMarkers` is not under `src/`);
`none` selects all groups. -/
def filtered (reg : List Highlight) (qs : Option (List String)) : List Highlight :=
  match qs with
  | none => reg
  | some names => reg.filter (fun h => names.contains h.group)

/-- Modelled from the spec: `findAt(virtualIndex, groupNames) →
Highlight|none`, where the virtual index addresses the ordered union of
highlights across the selected groups (`HighlightMarkers.find`). -/
def find (reg : List Highlight) (qs : Option (List String)) (i : Int) : Option Highlight :=
  if i < 0 then none else (filtered reg qs).get? i.toNat

/-- Modelled from the spec: `countActiveMatching(groupNames|none)`
(`HighlightMarkers.calculateTotalActive`). -/
def calculateTotalActive (reg : List Highlight) (qs : Option (List String)) : Nat :=
  (filtered reg qs).length

/-- `Cursor.clearActive_`: deactivate the current highlight, if any. -/
def clearActive_ (st : CState) (tr : Trace) : CState × Trace :=
  match st.active with
  | some _ => ({ st with active := none },
      { tr with setInactiveCalls := tr.setInactiveCalls + 1 })
  | none => (st, tr)

/-- `Cursor.set(index, dontRecurse, scrollTo?)`: resolve `index` against
the filtered registry; on a miss retry once at `0` (recursion bounded by
the flag); on success deactivate/activate, invoke the custom scroll
callback when provided (catching its exceptions) or the built-in
`scrollIntoView` when the first element is out of view, and report whether
the cursor moved. -/
def set (reg : List Highlight) (qs : Option (List String)) (st : CState) (index : Int)
    (dontRecurse : Bool) (scrollTo : Option ScrollCb) :
    Except String (CState × Bool × Trace) :=
  if index < 0 then .error "Invalid cursor index specified"
  else
    match find reg qs index with
    | none =>
      if dontRecurse then .ok (st, false, Trace.init)
      else set reg qs st 0 true none
    | some hl =>
      let p1 := clearActive_ st Trace.init
      let coll := hl.elements
      let p2 :=
        if 0 < coll.length then
          let stA := { p1.1 with active := some hl }
          let trA := { p1.2 with setActiveCalls := p1.2.setActiveCalls + 1 }
          let first := coll.getD 0 ⟨false⟩
          match scrollTo with
          | some f =>
            match f first with
            | .ok _ => (stA, { trA with scrollToCalls := trA.scrollToCalls + 1 })
            | .error _ =>
              (stA, { trA with
                  scrollToCalls := trA.scrollToCalls + 1
                  scrollErrors := trA.scrollErrors + 1 })
          | none =>
            if !first.inView then
              (stA, { trA with scrollIntoViewCalls := trA.scrollIntoViewCalls + 1 })
            else (stA, trA)
        else (p1.1, p1.2)
      if st.index == index then .ok (p2.1, false, p2.2)
      else .ok ({ p2.1 with index := index }, true, p2.2)
termination_by (if dontRecurse then 0 else 1)
decreasing_by
  simp_all

/-- `Cursor.prev`: no-op when `total = 0`, otherwise wrap to
`(index < 1 ? total : index) − 1`. -/
def prev (reg : List Highlight) (qs : Option (List String)) (st : CState) :
    Except String (CState × Bool × Trace) :=
  if 0 < st.total then
    set reg qs st ((if st.index < 1 then (st.total : Int) else st.index) - 1) false none
  else .ok (st, false, Trace.init)

/-- `Cursor.next`: `set(index + 1, false)`; wraparound is the retry-at-0
rule inside `set`. -/
def next (reg : List Highlight) (qs : Option (List String)) (st : CState) :
    Except String (CState × Bool × Trace) :=
  set reg qs st (st.index + 1) false none

end Cursor

/-!
## Highlight renderer

`TextNodeVisitor`, `TextRange` and the `Highlight` class are not under
`src/`; the document-order traversal is modelled from the spec, and a
highlight is modelled by its resolved range.  Wrapper elements are
represented by the text node they wrap (a wrapper's text content is its
node's value); `surround` returns the wrappers in creation order together
with the new index/document state and the number of `decorator.decorate`
invocations.
-/

/-- `TextRange`'s range descriptor: a marker plus an intra-node offset. -/
structure RangeDescriptor where
  marker : Marker
  offset : Nat
  deriving Repr, DecidableEq

/-- A resolved range: start and end descriptors (inclusive). -/
structure HRange where
  start : RangeDescriptor
  endd : RangeDescriptor
  deriving Repr, DecidableEq

/-- The part of the `Highlight` class that `surround` consumes: its
resolved range. -/
structure RHighlight where
  range : HRange
  deriving Repr, DecidableEq

/-- `HighlightRenderer._createHighlightElement(node)`: wrap the text node
with identity `n.id` in a `span` in place (insert the span before the
node, move the node into it). -/
def createHighlightElement (n : TextNode) (doc : List DocElem) : List DocElem :=
  doc.map (fun e =>
    match e with
    | .raw nn => if nn.id = n.id then .wrapped nn else .raw nn
    | .wrapped nn => .wrapped nn)

/-- Modelled from the spec: `TextNodeVisitor` (not under `src/`) traverses
the document's text nodes in document order; `surround` uses it to collect
every text node strictly after the start node up to but excluding the end
node. -/
def visitorCollect (doc : List DocElem) (startId endId : Nat) : List TextNode :=
  ((((doc.map DocElem.node).dropWhile (fun n => n.id ≠ startId)).drop 1).takeWhile
    (fun n => n.id ≠ endId))

namespace HighlightRenderer

/-- `HighlightRenderer._surround(descr, start, end)`: truncate the node of
`descr.marker` to `[start, end]` (`end = null` meaning the node's last
character) and wrap the resulting node — which is the node the in-place
updated `descr.marker` now references, i.e. the marker at the returned
index. -/
def surroundOne (content : TextContentS) (w : World) (descr : RangeDescriptor)
    (start : Int) (endOpt : Option Int) :
    Except JsErr (TextNode × TextContentS × World) := do
  let e := match endOpt with
    | none => (descr.marker.node.value.length : Int) - 1
    | some x => x
  let r ← TextContent.truncate content w descr.marker start e
  let n := (r.1.markers.getD r.2.2 default).node
  return (n, r.1, ⟨createHighlightElement n r.2.1.doc, r.2.1.nextId⟩)

/-- `HighlightRenderer.surround(highlight)`: single-node ranges get one
truncation and one wrapper; multi-node ranges wrap the truncated start
segment, every whole interior text node (collected by the visitor before
any truncation) and the truncated end segment, in document order.  The
decorator's `decorate` is invoked exactly once, counted in the last
component.  (`highlight.range.clearStartOffset()` is range-internal
bookkeeping of `TextRange`, which is not under `src/`; it does not affect
the index, the document or the wrappers.) -/
def surround (content : TextContentS) (w : World) (hl : RHighlight) :
    Except JsErr (List TextNode × TextContentS × World × Nat) := do
  let rangeStart := hl.range.start
  let rangeEnd := hl.range.endd
  if rangeStart.marker.node.id = rangeEnd.marker.node.id then
    let r ← surroundOne content w rangeStart (rangeStart.offset : Int)
      (some (rangeEnd.offset : Int))
    return ([r.1], r.2.1, r.2.2, 1)
  else
    let coll := visitorCollect w.doc rangeStart.marker.node.id rangeEnd.marker.node.id
    let r1 ← surroundOne content w rangeStart (rangeStart.offset : Int) none
    let doc2 := coll.foldl (fun d n => createHighlightElement n d) r1.2.2.doc
    let r2 ← surroundOne r1.2.1 ⟨doc2, r1.2.2.nextId⟩ rangeEnd 0
      (some (rangeEnd.offset : Int))
    return ([r1.1] ++ coll ++ [r2.1], r2.2.1, r2.2.2, 1)

end HighlightRenderer

-- ===== END OF DEFINITIONS =====

theorem tiles_nil {a c : Nat} : tiles a [] c ↔ c = a := Iff.rfl

theorem tiles_cons {a c : Nat} {m : Marker} {ms : List Marker} :
    tiles a (m :: ms) c ↔ m.offset = a ∧ tiles (a + m.node.value.length) ms c := Iff.rfl

theorem tiles_append {xs ys : List Marker} {a c : Nat} :
    tiles a (xs ++ ys) c ↔ ∃ b, tiles a xs b ∧ tiles b ys c := by
  induction xs generalizing a with
  | nil =>
    simp only [List.nil_append, tiles_nil]
    constructor
    · intro h; exact ⟨a, rfl, h⟩
    · rintro ⟨b, rfl, h⟩; exact h
  | cons m rest ih =>
    simp only [List.cons_append, tiles_cons, ih]
    constructor
    · rintro ⟨h1, b, h2, h3⟩; exact ⟨b, ⟨h1, h2⟩, h3⟩
    · rintro ⟨b, ⟨h1, h2⟩, h3⟩; exact ⟨h1, b, h2, h3⟩

theorem tiles_le {a c : Nat} {ms : List Marker} (h : tiles a ms c) : a ≤ c := by
  induction ms generalizing a with
  | nil => exact h.ge
  | cons m rest ih => exact le_trans (Nat.le_add_right _ _) (ih h.2)

theorem tiles_sum {a c : Nat} {ms : List Marker} (h : tiles a ms c) :
    a + (ms.map (fun m => m.node.value.length)).sum = c := by
  induction ms generalizing a with
  | nil => simpa using h.symm
  | cons m rest ih =>
    have := ih h.2
    simp only [List.map_cons, List.sum_cons]
    omega

theorem tiles_head_offset {a c : Nat} {ms : List Marker} (h : tiles a ms c) (hne : ms ≠ []) :
    (ms.getD 0 default).offset = a := by
  cases ms with
  | nil => exact absurd rfl hne
  | cons m rest => simpa using h.1

theorem tiles_adjacent {a c : Nat} {ms : List Marker} (h : tiles a ms c) :
    ∀ i, i + 1 < ms.length →
      (ms.getD (i + 1) default).offset
        = (ms.getD i default).offset + (ms.getD i default).node.value.length := by
  induction ms generalizing a with
  | nil => intro i hi; simp at hi
  | cons m rest ih =>
    intro i hi
    cases i with
    | zero =>
      cases rest with
      | nil => simp at hi
      | cons m2 rest2 =>
        have h1 := h.1
        have h2 := h.2.1
        simp only [List.getD_cons_succ, List.getD_cons_zero]
        omega
    | succ j =>
      have := ih h.2 j (by simpa using hi)
      simpa using this

theorem tiles_last {a c : Nat} {ms : List Marker} (h : tiles a ms c) (hne : ms ≠ []) :
    (ms.getD (ms.length - 1) default).offset
      + (ms.getD (ms.length - 1) default).node.value.length = c := by
  induction ms generalizing a with
  | nil => exact absurd rfl hne
  | cons m rest ih =>
    cases rest with
    | nil =>
      simp only [tiles_cons, tiles_nil] at h
      simp [h.1, h.2]
    | cons m2 rest2 =>
      have := ih h.2 (by simp)
      simpa [List.length_cons] using this

theorem tiles_step_lt {a c : Nat} {ms : List Marker}
    (h : tiles a ms c) (hpos : ∀ m ∈ ms, m.node.value ≠ []) :
    ∀ i, i + 1 < ms.length →
      (ms.getD i default).offset < (ms.getD (i + 1) default).offset := by
  intro i hi
  have hadj := tiles_adjacent h i hi
  have hmem : ms.getD i default ∈ ms := by
    have hlt : i < ms.length := by omega
    rw [List.getD_eq_getElem _ _ hlt]
    exact List.getElem_mem _
  have := hpos _ hmem
  have : (ms.getD i default).node.value.length ≠ 0 := by
    simpa [List.length_eq_zero] using this
  omega

theorem tiles_offset_lt {a c : Nat} {ms : List Marker}
    (h : tiles a ms c) (hpos : ∀ m ∈ ms, m.node.value ≠ []) :
    ∀ i j, i < j → j < ms.length →
      (ms.getD i default).offset < (ms.getD j default).offset := by
  intro i j
  induction j with
  | zero => omega
  | succ k ih =>
    intro hij hk
    have hstep := tiles_step_lt h hpos k (by omega)
    rcases Nat.lt_or_ge i k with hik | hik
    · exact lt_trans (ih hik (by omega)) hstep
    · have : i = k := by omega
      subst this
      exact hstep

theorem tiles_offset_le {a c : Nat} {ms : List Marker}
    (h : tiles a ms c) (hpos : ∀ m ∈ ms, m.node.value ≠ []) :
    ∀ i j, i ≤ j → j < ms.length →
      (ms.getD i default).offset ≤ (ms.getD j default).offset := by
  intro i j hij hj
  rcases Nat.lt_or_ge i j with h' | h'
  · exact le_of_lt (tiles_offset_lt h hpos i j h' hj)
  · have : i = j := by omega
    subst this; exact le_rfl


/-!
## Binary search correctness
-/

namespace TextContent

/-- Invariant of the `indexOf` binary-search loop: on a monotone markers
array it returns the leftmost index `r` of `[mn, mx]` whose offset is
`≥ target`, or `mx` when every offset is below `target`. -/
theorem bsearch_spec (ms : List Marker) (target : Int)
    (hmono : ∀ j k, j ≤ k → k < ms.length →
      (ms.getD j default).offset ≤ (ms.getD k default).offset)
    (mn mx : Nat) (hle : mn ≤ mx) (hmx : mx < ms.length) :
    ∃ r, bsearch ms target mn mx = .ok r ∧ mn ≤ r ∧ r ≤ mx ∧
      (∀ j, mn ≤ j → j < r → (((ms.getD j default).offset : Int) < target)) ∧
      (r < mx → target ≤ ((ms.getD r default).offset : Int)) := by
  by_cases h : mn < mx
  · have hmid : (mn + mx) / 2 < mx := by omega
    have hmidlt : (mn + mx) / 2 < ms.length := lt_trans hmid hmx
    have hget : ms.get? ((mn + mx) / 2) = some (ms.getD ((mn + mx) / 2) default) := by
      rw [List.get?_eq_getElem?, List.getElem?_eq_getElem hmidlt,
        List.getD_eq_getElem _ _ hmidlt]
    rw [bsearch, dif_pos h]
    simp only [hget]
    by_cases hcmp : ((ms.getD ((mn + mx) / 2) default).offset : Int) < target
    · rw [if_pos hcmp]
      obtain ⟨r, hr, h1, h2, h3, h4⟩ :=
        bsearch_spec ms target hmono ((mn + mx) / 2 + 1) mx (by omega) hmx
      refine ⟨r, hr, by omega, h2, ?_, h4⟩
      intro j hj1 hj2
      rcases Nat.lt_or_ge j ((mn + mx) / 2 + 1) with hj | hj
      · have : (ms.getD j default).offset ≤ (ms.getD ((mn + mx) / 2) default).offset :=
          hmono j _ (by omega) hmidlt
        have := hcmp
        omega
      · exact h3 j hj hj2
    · rw [if_neg hcmp]
      obtain ⟨r, hr, h1, h2, h3, h4⟩ :=
        bsearch_spec ms target hmono mn ((mn + mx) / 2) (by omega) hmidlt
      refine ⟨r, hr, h1, by omega, h3, ?_⟩
      intro _
      rcases Nat.lt_or_ge r ((mn + mx) / 2) with hr2 | hr2
      · exact h4 hr2
      · have : r = (mn + mx) / 2 := by omega
        rw [this]
        omega
  · have heq : mn = mx := by omega
    refine ⟨mn, ?_, le_rfl, by omega, ?_, ?_⟩
    · rw [bsearch, dif_neg h]
    · intro j h1 h2; omega
    · intro hlt; omega
termination_by mx - mn
decreasing_by
  · omega
  · omega

/-- On a well-formed non-empty index, `indexOf` maps every in-range offset
to the marker whose node contains it. -/
theorem indexOf_contains {tcs : TextContentS} (hw : TCwf tcs) {o : Int}
    (ho : 0 ≤ o) (holt : o < (tcs.text.length : Int)) :
    ∃ i, indexOf tcs o = .ok i ∧ i < tcs.markers.length ∧
      ((tcs.markers.getD i default).offset : Int) ≤ o ∧
      o < ((tcs.markers.getD i default).offset : Int)
        + ((tcs.markers.getD i default).node.value.length : Int) := by
  obtain ⟨ht, hpos⟩ := hw
  have hne : tcs.markers ≠ [] := by
    intro hnil
    rw [hnil] at ht
    have : tcs.text.length = 0 := ht
    omega
  have hlen : 0 < tcs.markers.length := List.length_pos.2 hne
  have hmono : ∀ j k, j ≤ k → k < tcs.markers.length →
      (tcs.markers.getD j default).offset ≤ (tcs.markers.getD k default).offset :=
    fun j k hjk hk => tiles_offset_le ht hpos j k hjk hk
  obtain ⟨r, hr, h1, h2, h3, h4⟩ :=
    bsearch_spec tcs.markers o hmono 0 (tcs.markers.length - 1) (by omega) (by omega)
  have hrlt : r < tcs.markers.length := by omega
  obtain ⟨mr, hgetr⟩ : ∃ mr, tcs.markers[r]? = some mr :=
    ⟨tcs.markers[r], List.getElem?_eq_getElem hrlt⟩
  have hmr : mr = tcs.markers.getD r default := by
    rw [List.getD_eq_getElem _ _ hrlt]
    have h' := hgetr
    rw [List.getElem?_eq_getElem hrlt] at h'
    exact (Option.some.inj h').symm
  by_cases hcmp : ((tcs.markers.getD r default).offset : Int) ≤ o
  · refine ⟨r, ?_, hrlt, hcmp, ?_⟩
    · have hcmp' : ((mr.offset : Int) ≤ o) := by rw [hmr]; exact hcmp
      simp [indexOf, Bind.bind, Except.bind, hr, hgetr, hcmp']
    · rcases Nat.lt_or_ge r (tcs.markers.length - 1) with hr2 | hr2
      · have := h4 hr2
        have hposr : (tcs.markers.getD r default).node.value.length ≠ 0 := by
          have hmem : tcs.markers.getD r default ∈ tcs.markers := by
            rw [List.getD_eq_getElem _ _ hrlt]; exact List.getElem_mem _
          simpa [List.length_eq_zero] using hpos _ hmem
        omega
      · have : r = tcs.markers.length - 1 := by omega
        subst this
        have hlast := tiles_last ht hne
        omega
  · have hr0 : r ≠ 0 := by
      intro h0
      rw [h0] at hcmp
      have := tiles_head_offset ht hne
      rw [this] at hcmp
      simp at hcmp
      omega
    refine ⟨r - 1, ?_, by omega, ?_, ?_⟩
    · have hcmp' : ¬((mr.offset : Int) ≤ o) := by rw [hmr]; exact hcmp
      simp [indexOf, Bind.bind, Except.bind, hr, hgetr, hcmp', hr0]
    · have := h3 (r - 1) (by omega) (by omega)
      omega
    · have hadj := tiles_adjacent ht (r - 1) (by omega)
      have hr1 : r - 1 + 1 = r := by omega
      rw [hr1] at hadj
      omega

/-- On a well-formed index, looking up the offset of the `i`-th marker
returns `i` itself. -/
theorem indexOf_at {tcs : TextContentS} (hw : TCwf tcs) {i : Nat} {m : Marker}
    (hi : tcs.markers.get? i = some m) :
    indexOf tcs (m.offset : Int) = .ok i := by
  obtain ⟨ht, hpos⟩ := hw
  have hilt : i < tcs.markers.length := List.get?_eq_some.1 hi |>.1
  have hne : tcs.markers ≠ [] := by
    intro hnil; rw [hnil] at hilt; simp at hilt
  have hgi : tcs.markers.getD i default = m := by
    rw [List.getD_eq_getElem _ _ hilt]
    have := List.get?_eq_some.1 hi
    obtain ⟨h', hm⟩ := this
    simpa [List.get_eq_getElem] using hm
  have hmono : ∀ j k, j ≤ k → k < tcs.markers.length →
      (tcs.markers.getD j default).offset ≤ (tcs.markers.getD k default).offset :=
    fun j k hjk hk => tiles_offset_le ht hpos j k hjk hk
  obtain ⟨r, hr, h1, h2, h3, h4⟩ :=
    bsearch_spec tcs.markers (m.offset : Int) hmono 0 (tcs.markers.length - 1)
      (by omega) (by omega)
  have hri : r = i := by
    rcases Nat.lt_trichotomy r i with hlt | heq | hgt
    · have hrmx : r < tcs.markers.length - 1 := by omega
      have := h4 hrmx
      have hlt2 := tiles_offset_lt ht hpos r i hlt hilt
      rw [hgi] at hlt2
      omega
    · exact heq
    · have := h3 i (by omega) hgt
      rw [hgi] at this
      omega
  subst hri
  have hgetr : tcs.markers[r]? = some m := by
    rw [← List.get?_eq_getElem?]; exact hi
  simp [indexOf, Bind.bind, Except.bind, hr, hgetr]

end TextContent

/-!
## Truncation: node splitting preserves the index invariants
-/

/-- Splicing `[y]` into `A ++ C` at position `|A|` (JS
`markers.splice(n, 0, y)`). -/
theorem splice_insert_eq {α : Type _} (A C : List α) (y : α) (n : Nat) (h : A.length = n) :
    (A ++ C).take n ++ [y] ++ (A ++ C).drop n = (A ++ [y]) ++ C := by
  subst h
  rw [List.take_left, List.drop_left]

/-- Replacing the element at position `|A|` of `A ++ x :: C` by `y` (the
in-place marker update of `truncate`). -/
theorem splice_set_eq {α : Type _} (A C : List α) (x y : α) (n : Nat) (h : A.length = n) :
    (A ++ x :: C).take n ++ [y] ++ (A ++ x :: C).drop (n + 1) = (A ++ [y]) ++ C := by
  subst h
  rw [List.take_left, List.drop_append, List.drop_one]
  simp

namespace TextContent

/-- The replacement segment produced by `truncate` tiles exactly the
interval of the original marker. -/
theorem truncSeg_tiles {m : Marker} {nid s e : Nat} (hse : s ≤ e)
    (helt : e < m.node.value.length) :
    tiles m.offset (truncSeg m nid s e) (m.offset + m.node.value.length) := by
  unfold truncSeg
  by_cases hs : 0 < s <;> by_cases he : e + 1 < m.node.value.length <;>
    simp [hs, he, tiles_append, tiles, List.length_take, List.length_drop] <;> omega

/-- Every node of the replacement segment is non-empty. -/
theorem truncSeg_pos {m : Marker} {nid s e : Nat} (hse : s ≤ e)
    (helt : e < m.node.value.length) :
    ∀ mm ∈ truncSeg m nid s e, mm.node.value ≠ [] := by
  intro mm hmm
  rw [← List.length_pos]
  unfold truncSeg at hmm
  by_cases hs : 0 < s <;> by_cases he : e + 1 < m.node.value.length <;>
    simp [hs, he] at hmm
  · rcases hmm with rfl | rfl | rfl <;> simp [List.length_take, List.length_drop] <;> omega
  · rcases hmm with rfl | rfl <;> simp [List.length_take, List.length_drop] <;> omega
  · rcases hmm with rfl | rfl <;> simp [List.length_take, List.length_drop] <;> omega
  · subst hmm
    simp [List.length_take, List.length_drop]
    omega

end TextContent

namespace TextContent

/-- Full characterization of a valid `truncate` call: given the marker at
array position `|A|`, the call succeeds, splices `truncSeg` in its place,
performs the corresponding document mutations and returns the index of the
isolated `[s, e]` marker. -/
theorem truncate_ok {tcs : TextContentS} {w : World} {m : Marker} {s e : Nat}
    {A B : List Marker} (hw : TCwf tcs) (hAB : tcs.markers = A ++ m :: B)
    (hse : s ≤ e) (helt : e < m.node.value.length) :
    truncate tcs w m (s : Int) (e : Int)
      = .ok (⟨tcs.text, A ++ truncSeg m w.nextId s e ++ B⟩, truncWorld m w s e,
             if 0 < s then A.length + 1 else A.length) := by
  have hi : tcs.markers.get? A.length = some m := by
    rw [hAB, List.get?_eq_getElem?, List.getElem?_append_right (le_refl A.length)]
    simp
  have hidx := indexOf_at hw hi
  unfold truncate
  rw [hidx]
  simp only [Bind.bind, Except.bind]
  have hc1 : ¬(((s : Nat) : Int) < 0 ∨ ((e : Nat) : Int) < 0
      ∨ ((s : Nat) : Int) > ((e : Nat) : Int)) := by omega
  rw [if_neg hc1]
  have hc2 : ¬((m.node.value.length : Int) ≤ ((e : Nat) : Int)) := by omega
  rw [if_neg hc2]
  simp only [Int.toNat_natCast]
  rw [hAB]
  by_cases hs : 0 < s
  · simp only [if_pos hs]
    rw [splice_insert_eq A (m :: B) _ A.length rfl]
    rw [splice_set_eq (A ++ [(⟨⟨w.nextId, m.node.value.take s⟩, m.offset⟩ : Marker)]) B m _
      (A.length + 1) (by simp)]
    by_cases he : e + 1 < m.node.value.length
    · rw [if_pos (show e ≠ m.node.value.length - 1 by omega)]
      rw [if_neg (show ¬((A ++ [(⟨⟨w.nextId, m.node.value.take s⟩, m.offset⟩ : Marker)])
        ++ [(⟨⟨w.nextId + 1, (m.node.value.drop s).take (e - s + 1)⟩,
              m.offset + s⟩ : Marker)]
        ++ B).length ≤ A.length + 1 by simp)]
      rw [splice_insert_eq ((A ++ [(⟨⟨w.nextId, m.node.value.take s⟩, m.offset⟩ : Marker)])
        ++ [(⟨⟨w.nextId + 1, (m.node.value.drop s).take (e - s + 1)⟩,
              m.offset + s⟩ : Marker)]) B _
        (A.length + 1 + 1) (by simp)]
      simp [truncSeg, truncWorld, hs, he, List.append_assoc]
    · rw [if_neg (show ¬e ≠ m.node.value.length - 1 by omega)]
      simp [truncSeg, truncWorld, hs, he, List.append_assoc]
  · simp only [if_neg hs]
    rw [splice_set_eq A B m _ A.length rfl]
    by_cases he : e + 1 < m.node.value.length
    · rw [if_pos (show e ≠ m.node.value.length - 1 by omega)]
      rw [if_neg (show ¬((A
        ++ [(⟨⟨w.nextId, (m.node.value.drop s).take (e - s + 1)⟩,
              m.offset + s⟩ : Marker)])
        ++ B).length ≤ A.length by simp)]
      rw [splice_insert_eq (A
        ++ [(⟨⟨w.nextId, (m.node.value.drop s).take (e - s + 1)⟩,
              m.offset + s⟩ : Marker)]) B _
        (A.length + 1) (by simp)]
      simp [truncSeg, truncWorld, hs, he, List.append_assoc]
    · rw [if_neg (show ¬e ≠ m.node.value.length - 1 by omega)]
      simp [truncSeg, truncWorld, hs, he, List.append_assoc]

end TextContent

namespace TextContent

/-- Decompose the markers array around position `i`. -/
theorem markers_split {tcs : TextContentS} {i : Nat} {m : Marker}
    (hi : tcs.markers.get? i = some m) :
    tcs.markers = tcs.markers.take i ++ m :: tcs.markers.drop (i + 1)
      ∧ (tcs.markers.take i).length = i := by
  obtain ⟨hlt, hget⟩ := List.get?_eq_some.1 hi
  refine ⟨?_, by simp [List.length_take]; omega⟩
  conv_lhs => rw [← List.take_append_drop i tcs.markers]
  congr 1
  rw [List.drop_eq_getElem_cons hlt]
  simp only [List.get_eq_getElem] at hget
  rw [hget]

/-- Truncation preserves well-formedness of the state (same flattened text,
replacement segment tiles the same interval). -/
theorem truncate_preserves_wf {tcs : TextContentS} {m : Marker} {nid s e : Nat}
    {A B : List Marker} (hw : TCwf tcs) (hAB : tcs.markers = A ++ m :: B)
    (hse : s ≤ e) (helt : e < m.node.value.length) :
    TCwf ⟨tcs.text, A ++ truncSeg m nid s e ++ B⟩ := by
  obtain ⟨ht, hpos⟩ := hw
  rw [hAB] at ht hpos
  rw [tiles_append] at ht
  obtain ⟨b, htA, htmB⟩ := ht
  rw [tiles_cons] at htmB
  obtain ⟨hb, htB⟩ := htmB
  constructor
  · show tiles 0 (A ++ truncSeg m nid s e ++ B) _
    rw [List.append_assoc, tiles_append]
    refine ⟨b, htA, ?_⟩
    rw [tiles_append]
    refine ⟨b + m.node.value.length, ?_, htB⟩
    have h' := @truncSeg_tiles m nid s e hse helt
    rw [hb] at h'
    exact h' 
  · intro mm hmm
    simp only [List.mem_append] at hmm
    rcases hmm with (hA | hseg) | hB
    · exact hpos mm (by simp [hA])
    · exact truncSeg_pos hse helt mm hseg
    · exact hpos mm (by simp [hB])

/-- Inversion of a successful `truncate`: the arguments must have been a
valid `0 ≤ start ≤ end < length` pair and the result is the characterized
splice. -/
theorem truncate_ok_inv {tcs : TextContentS} {w : World} {m : Marker} {a b : Int}
    {A B : List Marker} {out : TextContentS × World × Nat}
    (hw : TCwf tcs) (hAB : tcs.markers = A ++ m :: B)
    (h : truncate tcs w m a b = .ok out) :
    ∃ s e : Nat, a = (s : Int) ∧ b = (e : Int) ∧ s ≤ e ∧ e < m.node.value.length ∧
      out = (⟨tcs.text, A ++ truncSeg m w.nextId s e ++ B⟩, truncWorld m w s e,
             if 0 < s then A.length + 1 else A.length) := by
  have hi : tcs.markers.get? A.length = some m := by
    rw [hAB, List.get?_eq_getElem?, List.getElem?_append_right (le_refl A.length)]
    simp
  have hidx := indexOf_at hw hi
  have hcopy := h
  unfold truncate at hcopy
  rw [hidx] at hcopy
  simp only [Bind.bind, Except.bind] at hcopy
  by_cases hc1 : a < 0 ∨ b < 0 ∨ a > b
  · rw [if_pos hc1] at hcopy
    exact absurd hcopy (by simp)
  · rw [if_neg hc1] at hcopy
    by_cases hc2 : (m.node.value.length : Int) ≤ b
    · rw [if_pos hc2] at hcopy
      exact absurd hcopy (by simp)
    · refine ⟨a.toNat, b.toNat, ?_, ?_, by omega, by omega, ?_⟩
      · omega
      · omega
      · have ha' : a = ((a.toNat : Nat) : Int) := by omega
        have hb' : b = ((b.toNat : Nat) : Int) := by omega
        rw [ha', hb'] at h
        rw [truncate_ok hw hAB (by omega) (by omega)] at h
        exact (Except.ok.inj h).symm

/-- A `truncate` call with arguments violating
`0 ≤ start ≤ end < length` fails with a validation error. -/
theorem truncate_invalid_err {tcs : TextContentS} {w : World} {m : Marker} {a b : Int}
    {A B : List Marker} (hw : TCwf tcs) (hAB : tcs.markers = A ++ m :: B)
    (hbad : ¬(0 ≤ a ∧ a ≤ b ∧ b < (m.node.value.length : Int))) :
    truncate tcs w m a b = .error (.validation "Invalid truncation parameters")
      ∨ truncate tcs w m a b = .error (.validation "End offset overflow") := by
  have hi : tcs.markers.get? A.length = some m := by
    rw [hAB, List.get?_eq_getElem?, List.getElem?_append_right (le_refl A.length)]
    simp
  have hidx := indexOf_at hw hi
  unfold truncate
  rw [hidx]
  simp only [Bind.bind, Except.bind]
  by_cases hc1 : a < 0 ∨ b < 0 ∨ a > b
  · rw [if_pos hc1]
    exact Or.inl rfl
  · rw [if_neg hc1]
    have hc2 : (m.node.value.length : Int) ≤ b := by omega
    rw [if_pos hc2]
    exact Or.inr rfl

end TextContent

/-!
## Parsing establishes the invariants
-/

namespace TextContent

mutual

/-- `_visit` appends the spec-side flattened text, advances the offset by
its length, and appends markers that tile exactly the visited interval and
reference exactly the non-empty text nodes in pre-order. -/
theorem visitNode_spec (pt : String) (st : TextContentS) (off : Nat) (n : DomNode)
    (hoff : st.text.length = off) :
    (visitNode pt st off n).1.text = st.text ++ flattenSpecNode pt n ∧
    (visitNode pt st off n).2 = off + (flattenSpecNode pt n).length ∧
    ∃ mAdd, (visitNode pt st off n).1.markers = st.markers ++ mAdd ∧
      tiles off mAdd (off + (flattenSpecNode pt n).length) ∧
      (∀ mm ∈ mAdd, mm.node.value ≠ []) ∧
      mAdd.map (fun mm => mm.node) = nonEmptyTextNodes n := by
  cases n with
  | text nd =>
    by_cases hlen : nd.value.length < 1
    · have hv : nd.value = [] := List.length_eq_zero.1 (by omega)
      refine ⟨?_, ?_, [], ?_, ?_, ?_, ?_⟩ <;>
        simp [visitNode, flattenSpecNode, nonEmptyTextNodes, hlen, hv, tiles]
    · refine ⟨?_, ?_, [⟨nd, off⟩], ?_, ?_, ?_, ?_⟩
      · by_cases hig : pt ∈ IGNORE_TAGNAMES <;>
          simp [visitNode, flattenSpecNode, hlen, hig]
      · by_cases hig : pt ∈ IGNORE_TAGNAMES <;>
          simp [visitNode, flattenSpecNode, hlen, hig]
      · simp [visitNode, hlen]
      · by_cases hig : pt ∈ IGNORE_TAGNAMES <;>
          simp [flattenSpecNode, hlen, hig, tiles]
      · intro mm hmm
        simp only [List.mem_singleton] at hmm
        subst hmm
        simpa [List.length_eq_zero] using hlen
      · simp [nonEmptyTextNodes, hlen]
  | element tag cs =>
    simpa [visitNode, flattenSpecNode, nonEmptyTextNodes] using
      visitChildren_spec tag st off cs hoff

/-- Child-loop version of `visitNode_spec`. -/
theorem visitChildren_spec (tag : String) (st : TextContentS) (off : Nat)
    (cs : List DomNode) (hoff : st.text.length = off) :
    (visitChildren tag st off cs).1.text = st.text ++ flattenSpecList tag cs ∧
    (visitChildren tag st off cs).2 = off + (flattenSpecList tag cs).length ∧
    ∃ mAdd, (visitChildren tag st off cs).1.markers = st.markers ++ mAdd ∧
      tiles off mAdd (off + (flattenSpecList tag cs).length) ∧
      (∀ mm ∈ mAdd, mm.node.value ≠ []) ∧
      mAdd.map (fun mm => mm.node) = nonEmptyTextNodesList cs := by
  cases cs with
  | nil =>
    refine ⟨?_, ?_, [], ?_, ?_, ?_, ?_⟩ <;>
      simp [visitChildren, flattenSpecList, nonEmptyTextNodesList, tiles]
  | cons c cs' =>
    obtain ⟨h1t, h1o, m1, h1m, h1tile, h1pos, h1map⟩ := visitNode_spec tag st off c hoff
    have hoff' : (visitNode tag st off c).1.text.length = (visitNode tag st off c).2 := by
      rw [h1t, h1o, List.length_append, hoff]
    obtain ⟨h2t, h2o, m2, h2m, h2tile, h2pos, h2map⟩ :=
      visitChildren_spec tag (visitNode tag st off c).1 (visitNode tag st off c).2 cs' hoff'
    have hstep : visitChildren tag st off (c :: cs')
        = visitChildren tag (visitNode tag st off c).1 (visitNode tag st off c).2 cs' := by
      rw [visitChildren]
    rw [hstep]
    refine ⟨?_, ?_, m1 ++ m2, ?_, ?_, ?_, ?_⟩
    · rw [h2t, h1t, flattenSpecList, List.append_assoc]
    · rw [h2o, h1o, flattenSpecList, List.length_append]
      omega
    · rw [h2m, h1m, List.append_assoc]
    · rw [tiles_append]
      refine ⟨off + (flattenSpecNode tag c).length, h1tile, ?_⟩
      have := h2tile
      rw [h1o] at this
      have harith : off + (flattenSpecList tag (c :: cs')).length
          = off + (flattenSpecNode tag c).length + (flattenSpecList tag cs').length := by
        rw [flattenSpecList, List.length_append]
        omega
      rw [harith]
      exact this
    · intro mm hmm
      rcases List.mem_append.1 hmm with h | h
      · exact h1pos mm h
      · exact h2pos mm h
    · rw [List.map_append, h1map, h2map, nonEmptyTextNodesList]

end

/-- `parse` produces exactly the spec-side flattened text and one marker
per non-empty text node, in pre-order, tiling `[0, text.length)`. -/
theorem parse_spec (root : DomNode) :
    (parse root).text = flattenSpecNode "" root ∧
    (parse root).markers.map (fun mm => mm.node) = nonEmptyTextNodes root ∧
    tiles 0 (parse root).markers (parse root).text.length ∧
    (∀ mm ∈ (parse root).markers, mm.node.value ≠ []) := by
  obtain ⟨ht, ho, mAdd, hm, htile, hpos, hmap⟩ :=
    visitNode_spec "" ⟨[], []⟩ 0 root rfl
  have hparse : parse root = (visitNode "" ⟨[], []⟩ 0 root).1 := rfl
  rw [hparse]
  simp only [List.nil_append] at ht hm
  refine ⟨ht, by rw [hm, hmap], ?_, ?_⟩
  · rw [hm, ht]
    simpa using htile
  · rw [hm]
    exact hpos

/-- A freshly parsed index is well-formed. -/
theorem parse_wf (root : DomNode) : TCwf (parse root) :=
  ⟨(parse_spec root).2.2.1, (parse_spec root).2.2.2⟩

end TextContent

/-- A tiling with non-empty nodes is strictly sorted by offset. -/
theorem tiles_chain_lt {a c : Nat} {ms : List Marker} (h : tiles a ms c)
    (hpos : ∀ m ∈ ms, m.node.value ≠ []) :
    List.Chain' (fun x y => x.offset < y.offset) ms := by
  rw [List.chain'_iff_get]
  intro i hi
  have hstep := tiles_step_lt h hpos i (by omega)
  rw [List.getD_eq_getElem _ _ (show i < ms.length by omega)] at hstep
  rw [List.getD_eq_getElem _ _ (show i + 1 < ms.length by omega)] at hstep
  simpa [List.get_eq_getElem] using hstep

namespace TextContent

/-- Any successful sequence of `truncate` calls on a well-formed state
preserves well-formedness and leaves the flattened text unchanged. -/
theorem runTruncs_wf (calls : List (Nat × Int × Int)) :
    ∀ (tcs : TextContentS) (w : World) (tc' : TextContentS) (w' : World), TCwf tcs →
      runTruncs (tcs, w) calls = .ok (tc', w') → TCwf tc' ∧ tc'.text = tcs.text := by
  induction calls with
  | nil =>
    intro tcs w tc' w' hw h
    rw [runTruncs] at h
    obtain ⟨h1, h2⟩ := Prod.mk.inj (Except.ok.inj h)
    subst h1
    exact ⟨hw, rfl⟩
  | cons c rest ih =>
    intro tcs w tc' w' hw h
    rw [runTruncs] at h
    cases hg : tcs.markers.get? c.1 with
    | none => rw [hg] at h; exact absurd h (by simp)
    | some m =>
      rw [hg] at h
      simp only [Bind.bind, Except.bind] at h
      cases htr : truncate tcs w m c.2.1 c.2.2 with
      | error err => rw [htr] at h; exact absurd h (by simp)
      | ok out =>
        rw [htr] at h
        obtain ⟨hsplit, hlen⟩ := markers_split hg
        obtain ⟨s, e, ha, hb, hse, helt, hout⟩ := truncate_ok_inv hw hsplit htr
        subst hout
        have hw2 := @truncate_preserves_wf tcs m w.nextId s e _ _ hw hsplit hse helt
        obtain ⟨hwf', htext'⟩ := ih _ _ _ _ hw2 h
        exact ⟨hwf', htext'⟩

end TextContent

namespace TextContent

/-- On a well-formed non-empty index, a negative offset makes `indexOf`
throw the validation error. -/
theorem indexOf_neg_error {tcs : TextContentS} (hw : TCwf tcs) (hne : tcs.markers ≠ [])
    {o : Int} (ho : o < 0) :
    indexOf tcs o = .error (.validation "Invalid offset of text content state") := by
  obtain ⟨ht, hpos⟩ := hw
  have hlen : 0 < tcs.markers.length := List.length_pos.2 hne
  have hmono : ∀ j k, j ≤ k → k < tcs.markers.length →
      (tcs.markers.getD j default).offset ≤ (tcs.markers.getD k default).offset :=
    fun j k hjk hk => tiles_offset_le ht hpos j k hjk hk
  obtain ⟨r, hr, h1, h2, h3, h4⟩ :=
    bsearch_spec tcs.markers o hmono 0 (tcs.markers.length - 1) (by omega) (by omega)
  have hr0 : r = 0 := by
    by_contra h'
    have := h3 0 (by omega) (by omega)
    omega
  subst hr0
  obtain ⟨mr, hgetr⟩ : ∃ mr, tcs.markers[0]? = some mr :=
    ⟨tcs.markers[0], List.getElem?_eq_getElem hlen⟩
  have hmr : mr = tcs.markers.getD 0 default := by
    rw [List.getD_eq_getElem _ _ hlen]
    have h' := hgetr
    rw [List.getElem?_eq_getElem hlen] at h'
    exact (Option.some.inj h').symm
  have hoff0 : (tcs.markers.getD 0 default).offset = 0 := tiles_head_offset ht hne
  have hcmp : ¬((mr.offset : Int) ≤ o) := by
    rw [hmr, hoff0]
    omega
  simp [indexOf, Bind.bind, Except.bind, hr, hgetr, hcmp]

/-- On a well-formed non-empty index, an offset at or past the end of the
flattened text is silently clamped to the last marker. -/
theorem indexOf_overflow_clamp {tcs : TextContentS} (hw : TCwf tcs) (hne : tcs.markers ≠ [])
    {o : Int} (ho : (tcs.text.length : Int) ≤ o) :
    indexOf tcs o = .ok (tcs.markers.length - 1) := by
  obtain ⟨ht, hpos⟩ := hw
  have hlen : 0 < tcs.markers.length := List.length_pos.2 hne
  have hmono : ∀ j k, j ≤ k → k < tcs.markers.length →
      (tcs.markers.getD j default).offset ≤ (tcs.markers.getD k default).offset :=
    fun j k hjk hk => tiles_offset_le ht hpos j k hjk hk
  have hall : ∀ j, j < tcs.markers.length → ((tcs.markers.getD j default).offset : Int) < o := by
    intro j hj
    have hle : (tcs.markers.getD j default).offset
        ≤ (tcs.markers.getD (tcs.markers.length - 1) default).offset :=
      hmono j (tcs.markers.length - 1) (by omega) (by omega)
    have hlast := tiles_last ht hne
    have hmem : tcs.markers.getD (tcs.markers.length - 1) default ∈ tcs.markers := by
      rw [List.getD_eq_getElem _ _ (by omega)]
      exact List.getElem_mem _
    have hplen : (tcs.markers.getD (tcs.markers.length - 1) default).node.value.length ≠ 0 := by
      simpa [List.length_eq_zero] using hpos _ hmem
    omega
  obtain ⟨r, hr, h1, h2, h3, h4⟩ :=
    bsearch_spec tcs.markers o hmono 0 (tcs.markers.length - 1) (by omega) (by omega)
  have hrl : r = tcs.markers.length - 1 := by
    by_contra h'
    have hlt : r < tcs.markers.length - 1 := by omega
    have := h4 hlt
    have := hall r (by omega)
    omega
  subst hrl
  obtain ⟨mr, hgetr⟩ : ∃ mr, tcs.markers[tcs.markers.length - 1]? = some mr :=
    ⟨tcs.markers[tcs.markers.length - 1], List.getElem?_eq_getElem (by omega)⟩
  have hmr : mr = tcs.markers.getD (tcs.markers.length - 1) default := by
    rw [List.getD_eq_getElem _ _ (by omega)]
    have h' := hgetr
    rw [List.getElem?_eq_getElem (by omega)] at h'
    exact (Option.some.inj h').symm
  have hcmp : ((mr.offset : Int) ≤ o) := by
    rw [hmr]
    have := hall (tcs.markers.length - 1) (by omega)
    omega
  simp [indexOf, Bind.bind, Except.bind, hr, hgetr, hcmp]

end TextContent

/-!
## Claim theorems for the Text Index
-/

/-- C1: for every freshly parsed index and every successful sequence of
`truncate` calls, the markers stay sorted ascending by offset and
contiguous, and the total character count of the marker nodes is
preserved. -/
theorem claim_C1_truncate_invariants (root : DomNode) (w : World)
    (calls : List (Nat × Int × Int)) (tc' : TextContentS) (w' : World)
    (h : runTruncs (TextContent.parse root, w) calls = .ok (tc', w')) :
    List.Chain' (fun x y => x.offset < y.offset) tc'.markers ∧
    (∀ i, i + 1 < tc'.markers.length →
      (tc'.markers.getD (i + 1) default).offset
        = (tc'.markers.getD i default).offset
          + (tc'.markers.getD i default).node.value.length) ∧
    (tc'.markers.map (fun mm => mm.node.value.length)).sum
      = ((TextContent.parse root).markers.map (fun mm => mm.node.value.length)).sum := by
  obtain ⟨hwf', htext⟩ :=
    TextContent.runTruncs_wf calls (TextContent.parse root) w tc' w'
      (TextContent.parse_wf root) h
  obtain ⟨ht', hpos'⟩ := hwf'
  refine ⟨tiles_chain_lt ht' hpos', fun i hi => tiles_adjacent ht' i hi, ?_⟩
  have h1 := tiles_sum ht'
  have h2 := tiles_sum (TextContent.parse_wf root).1
  rw [htext] at h1
  omega

/-- C3: on a well-formed (parsed, contiguous) index, `indexOf` maps every
valid offset to the marker whose node contains it. -/
theorem claim_C3_indexOf_roundtrip (tcs : TextContentS) (hw : TCwf tcs) (o : Int)
    (h0 : 0 ≤ o) (h1 : o < (tcs.text.length : Int)) :
    ∃ i, TextContent.indexOf tcs o = .ok i ∧ i < tcs.markers.length ∧
      ((tcs.markers.getD i default).offset : Int) ≤ o ∧
      o < ((tcs.markers.getD i default).offset : Int)
        + ((tcs.markers.getD i default).node.value.length : Int) :=
  TextContent.indexOf_contains hw h0 h1

/-- C9: a `truncate` call on a marker of a well-formed index whose
arguments violate `0 ≤ start ≤ end < length` fails with a validation
error; since the error is the entire result of the call, no marker splice
and no document mutation is produced. -/
theorem claim_C9_truncate_validation (tcs : TextContentS) (w : World) (i : Nat)
    (m : Marker) (a b : Int) (hw : TCwf tcs) (hi : tcs.markers.get? i = some m)
    (hbad : ¬(0 ≤ a ∧ a ≤ b ∧ b < (m.node.value.length : Int))) :
    ∃ msg, TextContent.truncate tcs w m a b = .error (.validation msg) := by
  obtain ⟨hsplit, _⟩ := TextContent.markers_split hi
  rcases TextContent.truncate_invalid_err hw hsplit hbad with h | h
  · exact ⟨_, h⟩
  · exact ⟨_, h⟩

/-- C2 (amended): on a non-empty well-formed index, `indexOf` fails with
the validation error for every negative offset, but an offset at or past
the end of the indexed range is not an error: it is silently clamped to
the last marker's index. -/
theorem claim_C2_indexOf_error_handling (tcs : TextContentS) (hw : TCwf tcs)
    (hne : tcs.markers ≠ []) (o : Int) :
    (o < 0 → TextContent.indexOf tcs o
        = .error (.validation "Invalid offset of text content state")) ∧
    ((tcs.text.length : Int) ≤ o →
      TextContent.indexOf tcs o = .ok (tcs.markers.length - 1)) :=
  ⟨fun ho => TextContent.indexOf_neg_error hw hne ho,
   fun ho => TextContent.indexOf_overflow_clamp hw hne ho⟩

/-- C2 counterexample: on the freshly parsed two-node index over
`"ab"`, `"cd"` the out-of-range offset `4` (the flattened text length) does
not raise an error: `indexOf` silently clamps it to the last marker
index `1`. -/
theorem claim_C2_counterexample :
    (TextContent.parse
        (.element "P" [.text ⟨0, ['a', 'b']⟩, .text ⟨1, ['c', 'd']⟩])).text.length = 4 ∧
    TextContent.indexOf
        (TextContent.parse (.element "P" [.text ⟨0, ['a', 'b']⟩, .text ⟨1, ['c', 'd']⟩])) 4
      = .ok 1 := by
  constructor
  · decide
  · simp [TextContent.parse, TextContent.visitNode, TextContent.visitChildren,
      IGNORE_TAGNAMES, TextContent.indexOf, TextContent.bsearch, Bind.bind, Except.bind]

/-- C8: `parse` produces exactly the pre-order concatenation of the
non-empty text nodes' content (spaces for never-rendered parents), one
marker per non-empty text node, and the flattened text length equals the
last marker's offset plus its node's length. -/
theorem claim_C8_parse_flatten (root : DomNode) :
    (TextContent.parse root).text = flattenSpecNode "" root ∧
    (TextContent.parse root).markers.map (fun mm => mm.node) = nonEmptyTextNodes root ∧
    ((TextContent.parse root).markers ≠ [] →
      (TextContent.parse root).text.length
        = ((TextContent.parse root).markers.getD
            ((TextContent.parse root).markers.length - 1) default).offset
          + ((TextContent.parse root).markers.getD
              ((TextContent.parse root).markers.length - 1) default).node.value.length) := by
  obtain ⟨h1, h2, h3, h4⟩ := TextContent.parse_spec root
  exact ⟨h1, h2, fun hne => (tiles_last h3 hne).symm⟩

/-- C10: a `TextContent` with an empty markers array (freshly constructed,
disposed, or parsed over a root without non-empty text nodes) makes every
`indexOf` call fail with a runtime `TypeError` (reading `.offset` of
`undefined`), not the documented validation error. -/
theorem claim_C10_empty_markers_type_error :
    TextContent.empty.markers = [] ∧
    (∀ tcs, (TextContent.dispose tcs).markers = []) ∧
    (∀ root, nonEmptyTextNodes root = [] → (TextContent.parse root).markers = []) ∧
    (∀ (tcs : TextContentS) (o : Int), tcs.markers = [] →
      TextContent.indexOf tcs o = .error .typeError) := by
  refine ⟨rfl, fun _ => rfl, fun root h => ?_, fun tcs o h => ?_⟩
  · have hm := (TextContent.parse_spec root).2.1
    rw [h] at hm
    exact List.map_eq_nil_iff.1 hm
  · have hb : TextContent.bsearch ([] : List Marker) o 0 0 = .ok 0 := by
      rw [TextContent.bsearch]
      simp
    simp [TextContent.indexOf, Bind.bind, Except.bind, h, hb]

/-- Witness for C1 at a concrete input: truncating `[1,1]` of the single
node `"abc"` of a freshly parsed index. -/
theorem claim_C1_witness :
    runTruncs (TextContent.parse (.element "P" [.text ⟨0, ['a', 'b', 'c']⟩]),
        (⟨[.raw ⟨0, ['a', 'b', 'c']⟩], 1⟩ : World)) [(0, 1, 1)]
      = .ok (⟨['a', 'b', 'c'], [⟨⟨1, ['a']⟩, 0⟩, ⟨⟨2, ['b']⟩, 1⟩, ⟨⟨3, ['c']⟩, 2⟩]⟩,
          ⟨[.raw ⟨1, ['a']⟩, .raw ⟨2, ['b']⟩, .raw ⟨3, ['c']⟩], 4⟩) ∧
    List.Chain' (fun x y => x.offset < y.offset)
      [(⟨⟨1, ['a']⟩, 0⟩ : Marker), ⟨⟨2, ['b']⟩, 1⟩, ⟨⟨3, ['c']⟩, 2⟩] ∧
    ([(⟨⟨1, ['a']⟩, 0⟩ : Marker), ⟨⟨2, ['b']⟩, 1⟩, ⟨⟨3, ['c']⟩, 2⟩].map
        (fun mm => mm.node.value.length)).sum
      = ((TextContent.parse
            (.element "P" [.text ⟨0, ['a', 'b', 'c']⟩])).markers.map
          (fun mm => mm.node.value.length)).sum := by
  have hEval : runTruncs (TextContent.parse (.element "P" [.text ⟨0, ['a', 'b', 'c']⟩]),
      (⟨[.raw ⟨0, ['a', 'b', 'c']⟩], 1⟩ : World)) [(0, 1, 1)]
      = .ok (⟨['a', 'b', 'c'], [⟨⟨1, ['a']⟩, 0⟩, ⟨⟨2, ['b']⟩, 1⟩, ⟨⟨3, ['c']⟩, 2⟩]⟩,
          ⟨[.raw ⟨1, ['a']⟩, .raw ⟨2, ['b']⟩, .raw ⟨3, ['c']⟩], 4⟩) := by
    simp [runTruncs, TextContent.parse, TextContent.visitNode, TextContent.visitChildren,
      IGNORE_TAGNAMES, TextContent.truncate, TextContent.indexOf, TextContent.bsearch,
      insertBeforeId, insertAfterId, removeById, DocElem.node, Bind.bind, Except.bind]
  refine ⟨hEval, ?_, ?_⟩
  · exact (claim_C1_truncate_invariants _ _ _ _ _ hEval).1
  · exact (claim_C1_truncate_invariants _ _ _ _ _ hEval).2.2

/-- Witness for C2 (amended) at concrete inputs: offset `-5` raises the
validation error and offset `9` is clamped to the last marker. -/
theorem claim_C2_witness :
    TextContent.indexOf
        (TextContent.parse (.element "P" [.text ⟨0, ['a', 'b']⟩, .text ⟨1, ['c', 'd']⟩])) (-5)
      = .error (.validation "Invalid offset of text content state") ∧
    TextContent.indexOf
        (TextContent.parse (.element "P" [.text ⟨0, ['a', 'b']⟩, .text ⟨1, ['c', 'd']⟩])) 9
      = .ok 1 := by
  constructor
  · exact (claim_C2_indexOf_error_handling _ ⟨by decide, by decide⟩ (by decide) (-5)).1
      (by decide)
  · have h := (claim_C2_indexOf_error_handling
      (TextContent.parse (.element "P" [.text ⟨0, ['a', 'b']⟩, .text ⟨1, ['c', 'd']⟩]))
      ⟨by decide, by decide⟩ (by decide) 9).2 (by decide)
    rw [h, show (TextContent.parse
      (.element "P" [.text ⟨0, ['a', 'b']⟩, .text ⟨1, ['c', 'd']⟩])).markers.length - 1 = 1
      from by decide]

/-- Witness for C3 at a concrete input: offset `2` of the parsed `"ab"`,
`"cd"` index lands in the second marker. -/
theorem claim_C3_witness :
    (0 : Int) ≤ 2 ∧
    (2 : Int) < ((TextContent.parse
        (.element "P" [.text ⟨0, ['a', 'b']⟩, .text ⟨1, ['c', 'd']⟩])).text.length : Int) ∧
    (∃ i, TextContent.indexOf
        (TextContent.parse (.element "P" [.text ⟨0, ['a', 'b']⟩, .text ⟨1, ['c', 'd']⟩])) 2
        = .ok i ∧
      i < (TextContent.parse
          (.element "P" [.text ⟨0, ['a', 'b']⟩, .text ⟨1, ['c', 'd']⟩])).markers.length ∧
      (((TextContent.parse
          (.element "P" [.text ⟨0, ['a', 'b']⟩,
            .text ⟨1, ['c', 'd']⟩])).markers.getD i default).offset : Int) ≤ 2 ∧
      (2 : Int) < (((TextContent.parse
          (.element "P" [.text ⟨0, ['a', 'b']⟩,
            .text ⟨1, ['c', 'd']⟩])).markers.getD i default).offset : Int)
        + (((TextContent.parse
            (.element "P" [.text ⟨0, ['a', 'b']⟩,
              .text ⟨1, ['c', 'd']⟩])).markers.getD i default).node.value.length : Int)) :=
  ⟨by decide, by decide,
   claim_C3_indexOf_roundtrip _ ⟨by decide, by decide⟩ 2 (by decide) (by decide)⟩

/-- Witness for C8 at a concrete input containing an empty text node and a
script node. -/
theorem claim_C8_witness :
    (TextContent.parse (.element "P"
        [.text ⟨0, ['h', 'i']⟩, .text ⟨1, []⟩,
         .element "SCRIPT" [.text ⟨2, ['x', ';']⟩]])).text
      = flattenSpecNode "" (.element "P"
        [.text ⟨0, ['h', 'i']⟩, .text ⟨1, []⟩,
         .element "SCRIPT" [.text ⟨2, ['x', ';']⟩]]) ∧
    (TextContent.parse (.element "P"
        [.text ⟨0, ['h', 'i']⟩, .text ⟨1, []⟩,
         .element "SCRIPT" [.text ⟨2, ['x', ';']⟩]])).text.length
      = ((TextContent.parse (.element "P"
          [.text ⟨0, ['h', 'i']⟩, .text ⟨1, []⟩,
           .element "SCRIPT" [.text ⟨2, ['x', ';']⟩]])).markers.getD
          ((TextContent.parse (.element "P"
            [.text ⟨0, ['h', 'i']⟩, .text ⟨1, []⟩,
             .element "SCRIPT" [.text ⟨2, ['x', ';']⟩]])).markers.length - 1) default).offset
        + ((TextContent.parse (.element "P"
            [.text ⟨0, ['h', 'i']⟩, .text ⟨1, []⟩,
             .element "SCRIPT" [.text ⟨2, ['x', ';']⟩]])).markers.getD
            ((TextContent.parse (.element "P"
              [.text ⟨0, ['h', 'i']⟩, .text ⟨1, []⟩,
               .element "SCRIPT" [.text ⟨2, ['x', ';']⟩]])).markers.length - 1)
            default).node.value.length :=
  ⟨(claim_C8_parse_flatten _).1, (claim_C8_parse_flatten _).2.2 (by decide)⟩

/-- Witness for C9 at a concrete input: `start = -1` on the single
`"abc"` marker fails with a validation error. -/
theorem claim_C9_witness :
    ∃ msg, TextContent.truncate
        (TextContent.parse (.element "P" [.text ⟨0, ['a', 'b', 'c']⟩]))
        ⟨[.raw ⟨0, ['a', 'b', 'c']⟩], 1⟩ ⟨⟨0, ['a', 'b', 'c']⟩, 0⟩ (-1) 1
      = .error (.validation msg) :=
  claim_C9_truncate_validation _ _ 0 _ (-1) 1 ⟨by decide, by decide⟩ (by decide) (by decide)

/-- Witness for C10 at concrete inputs. -/
theorem claim_C10_witness :
    TextContent.indexOf TextContent.empty 7 = .error .typeError ∧
    (TextContent.parse (.element "P" [.text ⟨0, []⟩])).markers = [] :=
  ⟨claim_C10_empty_markers_type_error.2.2.2 TextContent.empty 7 rfl,
   claim_C10_empty_markers_type_error.2.2.1 _ (by decide)⟩

/-!
## Cursor claims
-/

namespace Cursor

/-- Successful resolution at a fresh index commits the cursor: the call
reports a move, the new index is the requested one and `total` is
untouched. -/
theorem set_commit (reg : List Highlight) (qs : Option (List String)) (st : CState)
    (index : Int) (sc : Option ScrollCb) (dr : Bool) (hl : Highlight)
    (h0 : ¬index < 0) (hfind : find reg qs index = some hl)
    (hne : ¬st.index = index) :
    ∃ st' tr, set reg qs st index dr sc = .ok (st', true, tr) ∧
      st'.index = index ∧ st'.total = st.total := by
  rw [set, if_neg h0, hfind]
  have hbeq : (st.index == index) = false := by simp [hne]
  simp only [hbeq, Bool.false_eq_true, if_false]
  refine ⟨_, _, rfl, by simp, ?_⟩
  simp only []
  cases hact : st.active <;>
    simp only [clearActive_, hact] <;>
    (repeat' split) <;>
    simp

end Cursor

/-- C6: `Cursor.set` throws for every negative index; a non-negative index
whose resolution fails retries exactly once with index 0 when the
recursion flag permits, and when that retry also fails it reports "no
move" (`false`) without an error. -/
theorem claim_C6_cursor_set_error_handling :
    (∀ reg qs (st : CState) (dr : Bool) (sc : Option ScrollCb) (index : Int), index < 0 →
      Cursor.set reg qs st index dr sc = .error "Invalid cursor index specified") ∧
    (∀ reg qs (st : CState) (sc : Option ScrollCb) (index : Int), 0 ≤ index →
      Cursor.find reg qs index = none →
      Cursor.set reg qs st index false sc = Cursor.set reg qs st 0 true none) ∧
    (∀ reg qs (st : CState) (dr : Bool) (sc : Option ScrollCb) (index : Int), 0 ≤ index →
      Cursor.find reg qs index = none → Cursor.find reg qs 0 = none →
      Cursor.set reg qs st index dr sc = .ok (st, false, Trace.init)) := by
  refine ⟨?_, ?_, ?_⟩
  · intro reg qs st dr sc index h
    rw [Cursor.set, if_pos h]
  · intro reg qs st sc index h0 hfind
    rw [Cursor.set, if_neg (not_lt.2 h0), hfind]
    simp
  · intro reg qs st dr sc index h0 hfind hfind0
    have hbase : Cursor.set reg qs st 0 true none = .ok (st, false, Trace.init) := by
      rw [Cursor.set, if_neg (by omega), hfind0]
      simp
    cases dr with
    | true =>
      rw [Cursor.set, if_neg (not_lt.2 h0), hfind]
      simp
    | false =>
      rw [Cursor.set, if_neg (not_lt.2 h0), hfind]
      simpa using hbase

/-- C5: with 3 highlights and no filter, `next()` from index 2 wraps to
index 0 (via the retry-at-0 rule in `set`), `prev()` from index 0 wraps to
index 2, and `prev()` is a no-op whenever `total = 0`. -/
theorem claim_C5_cursor_wraparound (h0 h1 h2 : Highlight) (act : Option Highlight) :
    (∃ st' tr, Cursor.next [h0, h1, h2] none ⟨2, 3, act⟩ = .ok (st', true, tr) ∧
      st'.index = 0 ∧ st'.total = 3) ∧
    (∃ st' tr, Cursor.prev [h0, h1, h2] none ⟨0, 3, act⟩ = .ok (st', true, tr) ∧
      st'.index = 2 ∧ st'.total = 3) ∧
    (∀ reg qs (st : CState), st.total = 0 →
      Cursor.prev reg qs st = .ok (st, false, Trace.init)) := by
  refine ⟨?_, ?_, ?_⟩
  · have hfind3 : Cursor.find [h0, h1, h2] none ((⟨2, 3, act⟩ : CState).index + 1) = none := by
      simp [Cursor.find, Cursor.filtered]
    have hstep : Cursor.next [h0, h1, h2] none ⟨2, 3, act⟩
        = Cursor.set [h0, h1, h2] none ⟨2, 3, act⟩ 0 true none := by
      rw [Cursor.next, Cursor.set, if_neg (by norm_num), hfind3]
      simp
    have hfind0 : Cursor.find [h0, h1, h2] none 0 = some h0 := by
      simp [Cursor.find, Cursor.filtered]
    obtain ⟨st', tr, heq, hidx, htot⟩ :=
      Cursor.set_commit [h0, h1, h2] none ⟨2, 3, act⟩ 0 none true h0
        (by norm_num) hfind0 (by norm_num)
    exact ⟨st', tr, by rw [hstep]; exact heq, hidx, by simpa using htot⟩
  · have hprev : Cursor.prev [h0, h1, h2] none ⟨0, 3, act⟩
        = Cursor.set [h0, h1, h2] none ⟨0, 3, act⟩ 2 false none := by
      rw [Cursor.prev]
      norm_num
    have hfind2 : Cursor.find [h0, h1, h2] none 2 = some h2 := by
      simp [Cursor.find, Cursor.filtered]
    obtain ⟨st', tr, heq, hidx, htot⟩ :=
      Cursor.set_commit [h0, h1, h2] none ⟨0, 3, act⟩ 2 none false h2
        (by norm_num) hfind2 (by norm_num)
    exact ⟨st', tr, by rw [hprev]; exact heq, hidx, by simpa using htot⟩
  · intro reg qs st h
    rw [Cursor.prev, if_neg (by omega)]

/-- Witness for C5 at concrete highlights, with the `total = 0` no-op
discharged at a concrete empty cursor. -/
theorem claim_C5_witness :
    (∃ st' tr, Cursor.next
        [(⟨"A", [⟨true⟩]⟩ : Highlight), ⟨"A", []⟩, ⟨"B", [⟨false⟩]⟩] none ⟨2, 3, none⟩
        = .ok (st', true, tr) ∧ st'.index = 0 ∧ st'.total = 3) ∧
    Cursor.prev [] none ⟨-1, 0, none⟩ = .ok (⟨-1, 0, none⟩, false, Trace.init) :=
  ⟨(claim_C5_cursor_wraparound ⟨"A", [⟨true⟩]⟩ ⟨"A", []⟩ ⟨"B", [⟨false⟩]⟩ none).1,
   (claim_C5_cursor_wraparound ⟨"A", [⟨true⟩]⟩ ⟨"A", []⟩ ⟨"B", [⟨false⟩]⟩ none).2.2
     [] none ⟨-1, 0, none⟩ rfl⟩

/-- C7 (amended): during `Cursor.set`, a provided custom scroll callback
is invoked whenever the resolved highlight has elements — regardless of
whether the first element is already in the viewport (the in-view check
only guards the built-in `scrollIntoView` fallback) — and an exception
thrown inside the callback is caught and logged, never propagated: the
call never returns an error for a non-negative index. -/
theorem claim_C7_scroll_callback_handling (reg : List Highlight)
    (qs : Option (List String)) (st : CState) (index : Int) (dr : Bool) (f : ScrollCb)
    (h0 : 0 ≤ index) :
    (∃ out, Cursor.set reg qs st index dr (some f) = .ok out) ∧
    (∀ hl, Cursor.find reg qs index = some hl → 0 < hl.elements.length →
      ∃ st' b tr, Cursor.set reg qs st index dr (some f) = .ok (st', b, tr) ∧
        tr.scrollToCalls = 1 ∧
        tr.scrollIntoViewCalls = 0 ∧
        ((∃ u, f (hl.elements.getD 0 ⟨false⟩) = .ok u) → tr.scrollErrors = 0) ∧
        ((∃ msg, f (hl.elements.getD 0 ⟨false⟩) = .error msg) → tr.scrollErrors = 1)) := by
  constructor
  · rw [Cursor.set, if_neg (by omega)]
    cases hfind : Cursor.find reg qs index with
    | some hl =>
      simp only []
      repeat' split
      all_goals exact ⟨_, rfl⟩
    | none =>
      cases dr with
      | true => exact ⟨(st, false, Trace.init), by simp⟩
      | false =>
        simp only [Bool.false_eq_true, if_false]
        rw [Cursor.set, if_neg (by omega)]
        cases hfind0 : Cursor.find reg qs 0 with
        | some hl =>
          simp only []
          repeat' split
          all_goals exact ⟨_, rfl⟩
        | none => exact ⟨(st, false, Trace.init), by simp⟩
  · intro hl hfind hlen
    rw [Cursor.set, if_neg (by omega), hfind]
    cases hact : st.active <;>
      simp only [Cursor.clearActive_, hact] <;>
      rw [if_pos hlen] <;>
      cases hf : f (hl.elements.getD 0 ⟨false⟩) <;>
      simp only [hf] <;>
      split <;>
      exact ⟨_, _, _, rfl, by simp [Trace.init], by simp [Trace.init],
        by simp [Trace.init, hf], by simp [Trace.init, hf]⟩

/-- C7 counterexample: with the single highlight's only element already in
view (`inView = true`) and a callback provided, `set` still invokes the
callback (`scrollToCalls = 1`), refuting "invoked only if the target is
not already within the visible viewport". -/
theorem claim_C7_counterexample :
    (⟨true⟩ : Elem).inView = true ∧
    Cursor.set [⟨"A", [⟨true⟩]⟩] none ⟨-1, 1, none⟩ 0 false
        (some (fun _ => .ok ()))
      = .ok (⟨0, 1, some ⟨"A", [⟨true⟩]⟩⟩, true,
          { scrollToCalls := 1, setActiveCalls := 1 }) := by
  constructor
  · rfl
  · rw [Cursor.set]
    simp [Cursor.find, Cursor.filtered, Cursor.clearActive_, Trace.init]

/-- Witness for C7 (amended) at a concrete input: one in-view element, a
throwing callback; the call succeeds and logs exactly one caught error. -/
theorem claim_C7_witness :
    ∃ st' b tr, Cursor.set [⟨"A", [⟨true⟩]⟩] none ⟨-1, 1, none⟩ 0 false
        (some (fun _ => .error "boom"))
      = .ok (st', b, tr) ∧
      tr.scrollToCalls = 1 ∧
      tr.scrollIntoViewCalls = 0 ∧
      tr.scrollErrors = 1 := by
  obtain ⟨st', b, tr, heq, h1, h2, _, h4⟩ :=
    (claim_C7_scroll_callback_handling [⟨"A", [⟨true⟩]⟩] none ⟨-1, 1, none⟩ 0 false
        (fun _ => .error "boom") (by norm_num)).2
      ⟨"A", [⟨true⟩]⟩ (by simp [Cursor.find, Cursor.filtered]) (by simp)
  exact ⟨st', b, tr, heq, h1, h2, h4 ⟨"boom", rfl⟩⟩

/-- Witness for C6 at concrete inputs: a negative index errors, a miss
with recursion allowed equals the retry at 0, and a miss on an empty
registry reports no move without error. -/
theorem claim_C6_witness :
    Cursor.set [] none ⟨-1, 0, none⟩ (-3) false none
      = .error "Invalid cursor index specified" ∧
    Cursor.set [⟨"A", []⟩] none ⟨-1, 1, none⟩ 5 false none
      = Cursor.set [⟨"A", []⟩] none ⟨-1, 1, none⟩ 0 true none ∧
    Cursor.set [] none ⟨-1, 0, none⟩ 5 false none = .ok (⟨-1, 0, none⟩, false, Trace.init) :=
  ⟨claim_C6_cursor_set_error_handling.1 [] none ⟨-1, 0, none⟩ false none (-3) (by norm_num),
   claim_C6_cursor_set_error_handling.2.1 [⟨"A", []⟩] none ⟨-1, 1, none⟩ none 5
     (by norm_num) (by decide),
   claim_C6_cursor_set_error_handling.2.2 [] none ⟨-1, 0, none⟩ false none 5
     (by norm_num) (by decide) (by decide)⟩

/-!
## Renderer claims
-/

namespace HighlightRenderer

/-- Reduce `surroundOne` through a characterized `truncate` result. -/
theorem surroundOne_eq {content : TextContentS} {w : World} {descr : RangeDescriptor}
    {start : Int} {endOpt : Option Int} {X : TextContentS × World × Nat}
    (htr : TextContent.truncate content w descr.marker start
        (match endOpt with
         | none => (descr.marker.node.value.length : Int) - 1
         | some x => x) = .ok X) :
    surroundOne content w descr start endOpt
      = .ok ((X.1.markers.getD X.2.2 default).node, X.1,
          ⟨createHighlightElement (X.1.markers.getD X.2.2 default).node X.2.1.doc,
           X.2.1.nextId⟩) := by
  unfold surroundOne
  simp only [htr, Bind.bind, Except.bind]
  rfl

end HighlightRenderer


/-- The characters spanned from intra-node offset `a` of the first node to
intra-node offset `b` (inclusive) of the third node equal the corresponding
substring of the concatenated text. -/
theorem spanned_extract (s0 s1 s2 : Str) (a b : Nat) (ha : a ≤ s0.length) :
    s0.drop a ++ s1 ++ s2.take (b + 1)
      = ((s0 ++ s1 ++ s2).drop a).take (s0.length - a + s1.length + (b + 1)) := by
  have e1 : a - s0.length = 0 := by omega
  have e2 : a - (s0 ++ s1).length = 0 := by
    simp only [List.length_append]
    omega
  have h1 : (s0 ++ s1 ++ s2).drop a = s0.drop a ++ s1 ++ s2 := by
    rw [List.drop_append_eq_append_drop, List.drop_append_eq_append_drop, e1, e2]
    simp
  have e4 : s0.length - a + s1.length + (b + 1) - (s0.drop a ++ s1).length = b + 1 := by
    simp only [List.length_append, List.length_drop]
    omega
  have h2 : (s0.drop a ++ s1 ++ s2).take (s0.length - a + s1.length + (b + 1))
      = s0.drop a ++ s1 ++ s2.take (b + 1) := by
    rw [List.take_append_eq_append_take]
    rw [List.take_of_length_le (show (s0.drop a ++ s1).length
      ≤ s0.length - a + s1.length + (b + 1) from by
        simp only [List.length_append, List.length_drop]
        omega)]
    rw [e4]
  rw [h1, h2]

namespace HighlightRenderer

/-- Reduce the multi-node branch of `surround` through characterized
`surroundOne` results. -/
theorem surround_multi_eq {content : TextContentS} {w : World}
    {sd ed : RangeDescriptor}
    (hne : ¬sd.marker.node.id = ed.marker.node.id)
    {Y1 Y2 : TextNode × TextContentS × World}
    (h1 : surroundOne content w sd (sd.offset : Int) none = .ok Y1)
    (h2 : surroundOne Y1.2.1
        ⟨(visitorCollect w.doc sd.marker.node.id ed.marker.node.id).foldl
          (fun d n => createHighlightElement n d) Y1.2.2.doc,
         Y1.2.2.nextId⟩ ed 0 (some (ed.offset : Int)) = .ok Y2) :
    surround content w ⟨⟨sd, ed⟩⟩ = .ok
      ([Y1.1] ++ visitorCollect w.doc sd.marker.node.id ed.marker.node.id ++ [Y2.1],
        Y2.2.1, Y2.2.2, 1) := by
  unfold surround
  rw [if_neg hne]
  simp only [h1, Bind.bind, Except.bind, h2]
  rfl

end HighlightRenderer

set_option maxHeartbeats 1000000 in
/-- C4: wrapping a range spanning three text nodes under a shared parent
produces exactly three wrapper elements, in document order (start segment,
interior node, end segment), whose concatenated text equals the originally
spanned substring of the flattened text; the decorator's `decorate` runs
exactly once per `surround` call (the final `1`). -/
theorem claim_C4_multi_node_wrap (s0 s1 s2 : Str) (a b : Nat)
    (hs0 : s0 ≠ []) (hs1 : s1 ≠ []) (hs2 : s2 ≠ [])
    (ha : a < s0.length) (hb : b < s2.length) :
    ∃ elems tc' w',
      HighlightRenderer.surround
          (TextContent.parse
            (.element "P" [.text ⟨0, s0⟩, .text ⟨1, s1⟩, .text ⟨2, s2⟩]))
          ⟨[.raw ⟨0, s0⟩, .raw ⟨1, s1⟩, .raw ⟨2, s2⟩], 3⟩
          ⟨⟨⟨⟨⟨0, s0⟩, 0⟩, a⟩, ⟨⟨⟨2, s2⟩, s0.length + s1.length⟩, b⟩⟩⟩
        = .ok (elems, tc', w', 1) ∧
      elems.length = 3 ∧
      elems.map (fun n => n.value) = [s0.drop a, s1, s2.take (b + 1)] ∧
      s0.drop a ++ s1 ++ s2.take (b + 1)
        = ((TextContent.parse
              (.element "P" [.text ⟨0, s0⟩, .text ⟨1, s1⟩,
                .text ⟨2, s2⟩])).text.drop a).take
            (s0.length - a + s1.length + (b + 1)) ∧
      w'.doc.filterMap (fun e => match e with
        | .wrapped n => some n
        | .raw _ => none) = elems := by
  have hP : ("P" : String) ∉ IGNORE_TAGNAMES := by decide
  have hl0 : 0 < s0.length := List.length_pos.2 hs0
  have hl1 : 0 < s1.length := List.length_pos.2 hs1
  have hl2 : 0 < s2.length := List.length_pos.2 hs2
  have hparse : TextContent.parse
      (.element "P" [.text ⟨0, s0⟩, .text ⟨1, s1⟩, .text ⟨2, s2⟩])
      = ⟨s0 ++ s1 ++ s2,
         [⟨⟨0, s0⟩, 0⟩, ⟨⟨1, s1⟩, s0.length⟩, ⟨⟨2, s2⟩, s0.length + s1.length⟩]⟩ := by
    simp [TextContent.parse, TextContent.visitNode, TextContent.visitChildren, hP,
      show ¬s0.length < 1 from by omega, show ¬s1.length < 1 from by omega,
      show ¬s2.length < 1 from by omega]
  have hspan := spanned_extract s0 s1 s2 a b (le_of_lt ha)
  have hwf : TCwf (⟨s0 ++ s1 ++ s2,
      [⟨⟨0, s0⟩, 0⟩, ⟨⟨1, s1⟩, s0.length⟩,
       ⟨⟨2, s2⟩, s0.length + s1.length⟩]⟩ : TextContentS) := by
    rw [← hparse]
    exact TextContent.parse_wf _
  have htrA := @TextContent.truncate_ok
    ⟨s0 ++ s1 ++ s2, [⟨⟨0, s0⟩, 0⟩, ⟨⟨1, s1⟩, s0.length⟩,
      ⟨⟨2, s2⟩, s0.length + s1.length⟩]⟩
    ⟨[.raw ⟨0, s0⟩, .raw ⟨1, s1⟩, .raw ⟨2, s2⟩], 3⟩
    ⟨⟨0, s0⟩, 0⟩ a (s0.length - 1) []
    [⟨⟨1, s1⟩, s0.length⟩, ⟨⟨2, s2⟩, s0.length + s1.length⟩]
    hwf rfl (by omega) (by show s0.length - 1 < s0.length; omega)
  have htr1 : TextContent.truncate
      ⟨s0 ++ s1 ++ s2, [⟨⟨0, s0⟩, 0⟩, ⟨⟨1, s1⟩, s0.length⟩,
        ⟨⟨2, s2⟩, s0.length + s1.length⟩]⟩
      ⟨[.raw ⟨0, s0⟩, .raw ⟨1, s1⟩, .raw ⟨2, s2⟩], 3⟩
      ⟨⟨0, s0⟩, 0⟩ (a : Int)
      (((⟨⟨0, s0⟩, 0⟩ : Marker).node.value.length : Int) - 1)
      = .ok (⟨s0 ++ s1 ++ s2,
          [] ++ truncSeg ⟨⟨0, s0⟩, 0⟩ 3 a (s0.length - 1)
            ++ [⟨⟨1, s1⟩, s0.length⟩, ⟨⟨2, s2⟩, s0.length + s1.length⟩]⟩,
          truncWorld ⟨⟨0, s0⟩, 0⟩ ⟨[.raw ⟨0, s0⟩, .raw ⟨1, s1⟩, .raw ⟨2, s2⟩], 3⟩
            a (s0.length - 1),
          if 0 < a then ([] : List Marker).length + 1 else ([] : List Marker).length) := by
    rw [show (((⟨⟨0, s0⟩, 0⟩ : Marker).node.value.length : Int) - 1)
      = ((s0.length - 1 : Nat) : Int) from by show ((s0.length : Int) - 1) = _; omega]
    exact htrA
  rw [hparse]
  by_cases hA : 0 < a
  · have hmv : (s0.drop a).take (s0.length - 1 - a + 1) = s0.drop a := by
      apply List.take_of_length_le
      rw [List.length_drop]
      omega
    have hseg1 : truncSeg ⟨⟨0, s0⟩, 0⟩ 3 a (s0.length - 1)
        = [⟨⟨3, s0.take a⟩, 0⟩, ⟨⟨4, s0.drop a⟩, a⟩] := by
      simp [truncSeg, hA, show ¬(s0.length - 1 + 1 < s0.length) from by omega, hmv]
    have hworld1 : truncWorld ⟨⟨0, s0⟩, 0⟩
        ⟨[.raw ⟨0, s0⟩, .raw ⟨1, s1⟩, .raw ⟨2, s2⟩], 3⟩ a (s0.length - 1)
        = ⟨[.raw ⟨3, s0.take a⟩, .raw ⟨4, s0.drop a⟩, .raw ⟨1, s1⟩, .raw ⟨2, s2⟩], 5⟩ := by
      simp [truncWorld, hA, show ¬(s0.length - 1 + 1 < s0.length) from by omega, hmv,
        insertBeforeId, insertAfterId, removeById, DocElem.node]
    have hr1 : HighlightRenderer.surroundOne
        ⟨s0 ++ s1 ++ s2, [⟨⟨0, s0⟩, 0⟩, ⟨⟨1, s1⟩, s0.length⟩,
          ⟨⟨2, s2⟩, s0.length + s1.length⟩]⟩
        ⟨[.raw ⟨0, s0⟩, .raw ⟨1, s1⟩, .raw ⟨2, s2⟩], 3⟩
        ⟨⟨⟨0, s0⟩, 0⟩, a⟩ (a : Int) none
        = .ok (⟨4, s0.drop a⟩,
            ⟨s0 ++ s1 ++ s2, [⟨⟨3, s0.take a⟩, 0⟩, ⟨⟨4, s0.drop a⟩, a⟩,
              ⟨⟨1, s1⟩, s0.length⟩, ⟨⟨2, s2⟩, s0.length + s1.length⟩]⟩,
            ⟨[.raw ⟨3, s0.take a⟩, .wrapped ⟨4, s0.drop a⟩, .raw ⟨1, s1⟩,
              .raw ⟨2, s2⟩], 5⟩) := by
      rw [@HighlightRenderer.surroundOne_eq
        ⟨s0 ++ s1 ++ s2, [⟨⟨0, s0⟩, 0⟩, ⟨⟨1, s1⟩, s0.length⟩,
          ⟨⟨2, s2⟩, s0.length + s1.length⟩]⟩
        ⟨[.raw ⟨0, s0⟩, .raw ⟨1, s1⟩, .raw ⟨2, s2⟩], 3⟩
        ⟨⟨⟨0, s0⟩, 0⟩, a⟩ (a : Int) none _ htr1]
      simp [hseg1, hworld1, createHighlightElement, DocElem.node, hA]
    have hw1 : TCwf ⟨s0 ++ s1 ++ s2, [⟨⟨3, s0.take a⟩, 0⟩, ⟨⟨4, s0.drop a⟩, a⟩,
        ⟨⟨1, s1⟩, s0.length⟩, ⟨⟨2, s2⟩, s0.length + s1.length⟩]⟩ := by
      have h := @TextContent.truncate_preserves_wf
        ⟨s0 ++ s1 ++ s2, [⟨⟨0, s0⟩, 0⟩, ⟨⟨1, s1⟩, s0.length⟩,
          ⟨⟨2, s2⟩, s0.length + s1.length⟩]⟩
        ⟨⟨0, s0⟩, 0⟩ 3 a (s0.length - 1) []
        [⟨⟨1, s1⟩, s0.length⟩, ⟨⟨2, s2⟩, s0.length + s1.length⟩]
        hwf rfl (by omega) (by show s0.length - 1 < s0.length; omega)
      rw [hseg1] at h
      simpa using h
    have htrB := @TextContent.truncate_ok
      ⟨s0 ++ s1 ++ s2, [⟨⟨3, s0.take a⟩, 0⟩, ⟨⟨4, s0.drop a⟩, a⟩,
        ⟨⟨1, s1⟩, s0.length⟩, ⟨⟨2, s2⟩, s0.length + s1.length⟩]⟩
      ⟨[.raw ⟨3, s0.take a⟩, .wrapped ⟨4, s0.drop a⟩, .wrapped ⟨1, s1⟩,
        .raw ⟨2, s2⟩], 5⟩
      ⟨⟨2, s2⟩, s0.length + s1.length⟩ 0 b
      [⟨⟨3, s0.take a⟩, 0⟩, ⟨⟨4, s0.drop a⟩, a⟩, ⟨⟨1, s1⟩, s0.length⟩] []
      hw1 rfl (by omega) (by show b < s2.length; omega)
    have htr2 : TextContent.truncate
        ⟨s0 ++ s1 ++ s2, [⟨⟨3, s0.take a⟩, 0⟩, ⟨⟨4, s0.drop a⟩, a⟩,
          ⟨⟨1, s1⟩, s0.length⟩, ⟨⟨2, s2⟩, s0.length + s1.length⟩]⟩
        ⟨[.raw ⟨3, s0.take a⟩, .wrapped ⟨4, s0.drop a⟩, .wrapped ⟨1, s1⟩,
          .raw ⟨2, s2⟩], 5⟩
        ⟨⟨2, s2⟩, s0.length + s1.length⟩ (0 : Int) ((b : Nat) : Int)
        = .ok (⟨s0 ++ s1 ++ s2,
            [⟨⟨3, s0.take a⟩, 0⟩, ⟨⟨4, s0.drop a⟩, a⟩, ⟨⟨1, s1⟩, s0.length⟩]
              ++ truncSeg ⟨⟨2, s2⟩, s0.length + s1.length⟩ 5 0 b ++ []⟩,
            truncWorld ⟨⟨2, s2⟩, s0.length + s1.length⟩
              ⟨[.raw ⟨3, s0.take a⟩, .wrapped ⟨4, s0.drop a⟩, .wrapped ⟨1, s1⟩,
                .raw ⟨2, s2⟩], 5⟩ 0 b,
            if 0 < (0 : Nat) then
              ([⟨⟨3, s0.take a⟩, 0⟩, ⟨⟨4, s0.drop a⟩, a⟩,
                ⟨⟨1, s1⟩, s0.length⟩] : List Marker).length + 1
            else ([⟨⟨3, s0.take a⟩, 0⟩, ⟨⟨4, s0.drop a⟩, a⟩,
                ⟨⟨1, s1⟩, s0.length⟩] : List Marker).length) := htrB
    by_cases hB : b + 1 < s2.length
    · have hseg2 : truncSeg ⟨⟨2, s2⟩, s0.length + s1.length⟩ 5 0 b
          = [⟨⟨5, s2.take (b + 1)⟩, s0.length + s1.length⟩,
             ⟨⟨6, s2.drop (b + 1)⟩, s0.length + s1.length + (b + 1)⟩] := by
        simp [truncSeg, hB]
      have hworld2 : truncWorld ⟨⟨2, s2⟩, s0.length + s1.length⟩
          ⟨[.raw ⟨3, s0.take a⟩, .wrapped ⟨4, s0.drop a⟩, .wrapped ⟨1, s1⟩,
            .raw ⟨2, s2⟩], 5⟩ 0 b
          = ⟨[.raw ⟨3, s0.take a⟩, .wrapped ⟨4, s0.drop a⟩, .wrapped ⟨1, s1⟩,
              .raw ⟨5, s2.take (b + 1)⟩, .raw ⟨6, s2.drop (b + 1)⟩], 7⟩ := by
        simp [truncWorld, hB, insertBeforeId, insertAfterId, removeById, DocElem.node]
      have hr2 : HighlightRenderer.surroundOne
          ⟨s0 ++ s1 ++ s2, [⟨⟨3, s0.take a⟩, 0⟩, ⟨⟨4, s0.drop a⟩, a⟩,
            ⟨⟨1, s1⟩, s0.length⟩, ⟨⟨2, s2⟩, s0.length + s1.length⟩]⟩
          ⟨[.raw ⟨3, s0.take a⟩, .wrapped ⟨4, s0.drop a⟩, .wrapped ⟨1, s1⟩,
            .raw ⟨2, s2⟩], 5⟩
          ⟨⟨⟨2, s2⟩, s0.length + s1.length⟩, b⟩ (0 : Int) (some ((b : Nat) : Int))
          = .ok (⟨5, s2.take (b + 1)⟩,
              ⟨s0 ++ s1 ++ s2, [⟨⟨3, s0.take a⟩, 0⟩, ⟨⟨4, s0.drop a⟩, a⟩,
                ⟨⟨1, s1⟩, s0.length⟩, ⟨⟨5, s2.take (b + 1)⟩, s0.length + s1.length⟩,
                ⟨⟨6, s2.drop (b + 1)⟩, s0.length + s1.length + (b + 1)⟩]⟩,
              ⟨[.raw ⟨3, s0.take a⟩, .wrapped ⟨4, s0.drop a⟩, .wrapped ⟨1, s1⟩,
                .wrapped ⟨5, s2.take (b + 1)⟩, .raw ⟨6, s2.drop (b + 1)⟩], 7⟩) := by
        rw [@HighlightRenderer.surroundOne_eq
          ⟨s0 ++ s1 ++ s2, [⟨⟨3, s0.take a⟩, 0⟩, ⟨⟨4, s0.drop a⟩, a⟩,
            ⟨⟨1, s1⟩, s0.length⟩, ⟨⟨2, s2⟩, s0.length + s1.length⟩]⟩
          ⟨[.raw ⟨3, s0.take a⟩, .wrapped ⟨4, s0.drop a⟩, .wrapped ⟨1, s1⟩,
            .raw ⟨2, s2⟩], 5⟩
          ⟨⟨⟨2, s2⟩, s0.length + s1.length⟩, b⟩ (0 : Int) (some ((b : Nat) : Int)) _ htr2]
        simp [hseg2, hworld2, createHighlightElement, DocElem.node]
      have hsur := HighlightRenderer.surround_multi_eq (by simp) hr1 hr2
      have hcoll : visitorCollect
          [DocElem.raw ⟨0, s0⟩, DocElem.raw ⟨1, s1⟩, DocElem.raw ⟨2, s2⟩] 0 2
          = [⟨1, s1⟩] := by
        simp [visitorCollect, DocElem.node]
      refine ⟨[⟨4, s0.drop a⟩, ⟨1, s1⟩, ⟨5, s2.take (b + 1)⟩],
        ⟨s0 ++ s1 ++ s2, [⟨⟨3, s0.take a⟩, 0⟩, ⟨⟨4, s0.drop a⟩, a⟩,
          ⟨⟨1, s1⟩, s0.length⟩, ⟨⟨5, s2.take (b + 1)⟩, s0.length + s1.length⟩,
          ⟨⟨6, s2.drop (b + 1)⟩, s0.length + s1.length + (b + 1)⟩]⟩,
        ⟨[.raw ⟨3, s0.take a⟩, .wrapped ⟨4, s0.drop a⟩, .wrapped ⟨1, s1⟩,
          .wrapped ⟨5, s2.take (b + 1)⟩, .raw ⟨6, s2.drop (b + 1)⟩], 7⟩,
        ?_, rfl, rfl, ?_, ?_⟩
      · rw [hsur]
        simp [hcoll]
      · simpa using hspan
      · simp [List.filterMap]
    · have hseg2 : truncSeg ⟨⟨2, s2⟩, s0.length + s1.length⟩ 5 0 b
          = [⟨⟨5, s2.take (b + 1)⟩, s0.length + s1.length⟩] := by
        simp [truncSeg, hB]
      have hworld2 : truncWorld ⟨⟨2, s2⟩, s0.length + s1.length⟩
          ⟨[.raw ⟨3, s0.take a⟩, .wrapped ⟨4, s0.drop a⟩, .wrapped ⟨1, s1⟩,
            .raw ⟨2, s2⟩], 5⟩ 0 b
          = ⟨[.raw ⟨3, s0.take a⟩, .wrapped ⟨4, s0.drop a⟩, .wrapped ⟨1, s1⟩,
              .raw ⟨5, s2.take (b + 1)⟩], 6⟩ := by
        simp [truncWorld, hB, insertBeforeId, insertAfterId, removeById, DocElem.node]
      have hr2 : HighlightRenderer.surroundOne
          ⟨s0 ++ s1 ++ s2, [⟨⟨3, s0.take a⟩, 0⟩, ⟨⟨4, s0.drop a⟩, a⟩,
            ⟨⟨1, s1⟩, s0.length⟩, ⟨⟨2, s2⟩, s0.length + s1.length⟩]⟩
          ⟨[.raw ⟨3, s0.take a⟩, .wrapped ⟨4, s0.drop a⟩, .wrapped ⟨1, s1⟩,
            .raw ⟨2, s2⟩], 5⟩
          ⟨⟨⟨2, s2⟩, s0.length + s1.length⟩, b⟩ (0 : Int) (some ((b : Nat) : Int))
          = .ok (⟨5, s2.take (b + 1)⟩,
              ⟨s0 ++ s1 ++ s2, [⟨⟨3, s0.take a⟩, 0⟩, ⟨⟨4, s0.drop a⟩, a⟩,
                ⟨⟨1, s1⟩, s0.length⟩,
                ⟨⟨5, s2.take (b + 1)⟩, s0.length + s1.length⟩]⟩,
              ⟨[.raw ⟨3, s0.take a⟩, .wrapped ⟨4, s0.drop a⟩, .wrapped ⟨1, s1⟩,
                .wrapped ⟨5, s2.take (b + 1)⟩], 6⟩) := by
        rw [@HighlightRenderer.surroundOne_eq
          ⟨s0 ++ s1 ++ s2, [⟨⟨3, s0.take a⟩, 0⟩, ⟨⟨4, s0.drop a⟩, a⟩,
            ⟨⟨1, s1⟩, s0.length⟩, ⟨⟨2, s2⟩, s0.length + s1.length⟩]⟩
          ⟨[.raw ⟨3, s0.take a⟩, .wrapped ⟨4, s0.drop a⟩, .wrapped ⟨1, s1⟩,
            .raw ⟨2, s2⟩], 5⟩
          ⟨⟨⟨2, s2⟩, s0.length + s1.length⟩, b⟩ (0 : Int) (some ((b : Nat) : Int)) _ htr2]
        simp [hseg2, hworld2, createHighlightElement, DocElem.node]
      have hsur := HighlightRenderer.surround_multi_eq (by simp) hr1 hr2
      have hcoll : visitorCollect
          [DocElem.raw ⟨0, s0⟩, DocElem.raw ⟨1, s1⟩, DocElem.raw ⟨2, s2⟩] 0 2
          = [⟨1, s1⟩] := by
        simp [visitorCollect, DocElem.node]
      refine ⟨[⟨4, s0.drop a⟩, ⟨1, s1⟩, ⟨5, s2.take (b + 1)⟩],
        ⟨s0 ++ s1 ++ s2, [⟨⟨3, s0.take a⟩, 0⟩, ⟨⟨4, s0.drop a⟩, a⟩,
          ⟨⟨1, s1⟩, s0.length⟩,
          ⟨⟨5, s2.take (b + 1)⟩, s0.length + s1.length⟩]⟩,
        ⟨[.raw ⟨3, s0.take a⟩, .wrapped ⟨4, s0.drop a⟩, .wrapped ⟨1, s1⟩,
          .wrapped ⟨5, s2.take (b + 1)⟩], 6⟩,
        ?_, rfl, rfl, ?_, ?_⟩
      · rw [hsur]
        simp [hcoll]
      · simpa using hspan
      · simp [List.filterMap]
  · have ha0 : a = 0 := by omega
    subst ha0
    have hmv : s0.take (s0.length - 1 + 1) = s0 := by
      apply List.take_of_length_le
      omega
    have hseg1 : truncSeg ⟨⟨0, s0⟩, 0⟩ 3 0 (s0.length - 1) = [⟨⟨3, s0⟩, 0⟩] := by
      simp [truncSeg, show ¬(s0.length - 1 + 1 < s0.length) from by omega, hmv]
    have hworld1 : truncWorld ⟨⟨0, s0⟩, 0⟩
        ⟨[.raw ⟨0, s0⟩, .raw ⟨1, s1⟩, .raw ⟨2, s2⟩], 3⟩ 0 (s0.length - 1)
        = ⟨[.raw ⟨3, s0⟩, .raw ⟨1, s1⟩, .raw ⟨2, s2⟩], 4⟩ := by
      simp [truncWorld, show ¬(s0.length - 1 + 1 < s0.length) from by omega, hmv,
        insertBeforeId, insertAfterId, removeById, DocElem.node]
    have hr1 : HighlightRenderer.surroundOne
        ⟨s0 ++ s1 ++ s2, [⟨⟨0, s0⟩, 0⟩, ⟨⟨1, s1⟩, s0.length⟩,
          ⟨⟨2, s2⟩, s0.length + s1.length⟩]⟩
        ⟨[.raw ⟨0, s0⟩, .raw ⟨1, s1⟩, .raw ⟨2, s2⟩], 3⟩
        ⟨⟨⟨0, s0⟩, 0⟩, 0⟩ ((0 : Nat) : Int) none
        = .ok (⟨3, s0⟩,
            ⟨s0 ++ s1 ++ s2, [⟨⟨3, s0⟩, 0⟩, ⟨⟨1, s1⟩, s0.length⟩,
              ⟨⟨2, s2⟩, s0.length + s1.length⟩]⟩,
            ⟨[.wrapped ⟨3, s0⟩, .raw ⟨1, s1⟩, .raw ⟨2, s2⟩], 4⟩) := by
      rw [@HighlightRenderer.surroundOne_eq
        ⟨s0 ++ s1 ++ s2, [⟨⟨0, s0⟩, 0⟩, ⟨⟨1, s1⟩, s0.length⟩,
          ⟨⟨2, s2⟩, s0.length + s1.length⟩]⟩
        ⟨[.raw ⟨0, s0⟩, .raw ⟨1, s1⟩, .raw ⟨2, s2⟩], 3⟩
        ⟨⟨⟨0, s0⟩, 0⟩, 0⟩ ((0 : Nat) : Int) none _ htr1]
      simp [hseg1, hworld1, createHighlightElement, DocElem.node]
    have hw1 : TCwf ⟨s0 ++ s1 ++ s2, [⟨⟨3, s0⟩, 0⟩, ⟨⟨1, s1⟩, s0.length⟩,
        ⟨⟨2, s2⟩, s0.length + s1.length⟩]⟩ := by
      have h := @TextContent.truncate_preserves_wf
        ⟨s0 ++ s1 ++ s2, [⟨⟨0, s0⟩, 0⟩, ⟨⟨1, s1⟩, s0.length⟩,
          ⟨⟨2, s2⟩, s0.length + s1.length⟩]⟩
        ⟨⟨0, s0⟩, 0⟩ 3 0 (s0.length - 1) []
        [⟨⟨1, s1⟩, s0.length⟩, ⟨⟨2, s2⟩, s0.length + s1.length⟩]
        hwf rfl (by omega) (by show s0.length - 1 < s0.length; omega)
      rw [hseg1] at h
      simpa using h
    have htrB := @TextContent.truncate_ok
      ⟨s0 ++ s1 ++ s2, [⟨⟨3, s0⟩, 0⟩, ⟨⟨1, s1⟩, s0.length⟩,
        ⟨⟨2, s2⟩, s0.length + s1.length⟩]⟩
      ⟨[.wrapped ⟨3, s0⟩, .wrapped ⟨1, s1⟩, .raw ⟨2, s2⟩], 4⟩
      ⟨⟨2, s2⟩, s0.length + s1.length⟩ 0 b
      [⟨⟨3, s0⟩, 0⟩, ⟨⟨1, s1⟩, s0.length⟩] []
      hw1 rfl (by omega) (by show b < s2.length; omega)
    have htr2 : TextContent.truncate
        ⟨s0 ++ s1 ++ s2, [⟨⟨3, s0⟩, 0⟩, ⟨⟨1, s1⟩, s0.length⟩,
          ⟨⟨2, s2⟩, s0.length + s1.length⟩]⟩
        ⟨[.wrapped ⟨3, s0⟩, .wrapped ⟨1, s1⟩, .raw ⟨2, s2⟩], 4⟩
        ⟨⟨2, s2⟩, s0.length + s1.length⟩ (0 : Int) ((b : Nat) : Int)
        = .ok (⟨s0 ++ s1 ++ s2,
            [⟨⟨3, s0⟩, 0⟩, ⟨⟨1, s1⟩, s0.length⟩]
              ++ truncSeg ⟨⟨2, s2⟩, s0.length + s1.length⟩ 4 0 b ++ []⟩,
            truncWorld ⟨⟨2, s2⟩, s0.length + s1.length⟩
              ⟨[.wrapped ⟨3, s0⟩, .wrapped ⟨1, s1⟩, .raw ⟨2, s2⟩], 4⟩ 0 b,
            if 0 < (0 : Nat) then
              ([⟨⟨3, s0⟩, 0⟩, ⟨⟨1, s1⟩, s0.length⟩] : List Marker).length + 1
            else ([⟨⟨3, s0⟩, 0⟩, ⟨⟨1, s1⟩, s0.length⟩] : List Marker).length) := htrB
    by_cases hB : b + 1 < s2.length
    · have hseg2 : truncSeg ⟨⟨2, s2⟩, s0.length + s1.length⟩ 4 0 b
          = [⟨⟨4, s2.take (b + 1)⟩, s0.length + s1.length⟩,
             ⟨⟨5, s2.drop (b + 1)⟩, s0.length + s1.length + (b + 1)⟩] := by
        simp [truncSeg, hB]
      have hworld2 : truncWorld ⟨⟨2, s2⟩, s0.length + s1.length⟩
          ⟨[.wrapped ⟨3, s0⟩, .wrapped ⟨1, s1⟩, .raw ⟨2, s2⟩], 4⟩ 0 b
          = ⟨[.wrapped ⟨3, s0⟩, .wrapped ⟨1, s1⟩, .raw ⟨4, s2.take (b + 1)⟩,
              .raw ⟨5, s2.drop (b + 1)⟩], 6⟩ := by
        simp [truncWorld, hB, insertBeforeId, insertAfterId, removeById, DocElem.node]
      have hr2 : HighlightRenderer.surroundOne
          ⟨s0 ++ s1 ++ s2, [⟨⟨3, s0⟩, 0⟩, ⟨⟨1, s1⟩, s0.length⟩,
            ⟨⟨2, s2⟩, s0.length + s1.length⟩]⟩
          ⟨[.wrapped ⟨3, s0⟩, .wrapped ⟨1, s1⟩, .raw ⟨2, s2⟩], 4⟩
          ⟨⟨⟨2, s2⟩, s0.length + s1.length⟩, b⟩ (0 : Int) (some ((b : Nat) : Int))
          = .ok (⟨4, s2.take (b + 1)⟩,
              ⟨s0 ++ s1 ++ s2, [⟨⟨3, s0⟩, 0⟩, ⟨⟨1, s1⟩, s0.length⟩,
                ⟨⟨4, s2.take (b + 1)⟩, s0.length + s1.length⟩,
                ⟨⟨5, s2.drop (b + 1)⟩, s0.length + s1.length + (b + 1)⟩]⟩,
              ⟨[.wrapped ⟨3, s0⟩, .wrapped ⟨1, s1⟩,
                .wrapped ⟨4, s2.take (b + 1)⟩, .raw ⟨5, s2.drop (b + 1)⟩], 6⟩) := by
        rw [@HighlightRenderer.surroundOne_eq
          ⟨s0 ++ s1 ++ s2, [⟨⟨3, s0⟩, 0⟩, ⟨⟨1, s1⟩, s0.length⟩,
            ⟨⟨2, s2⟩, s0.length + s1.length⟩]⟩
          ⟨[.wrapped ⟨3, s0⟩, .wrapped ⟨1, s1⟩, .raw ⟨2, s2⟩], 4⟩
          ⟨⟨⟨2, s2⟩, s0.length + s1.length⟩, b⟩ (0 : Int) (some ((b : Nat) : Int)) _ htr2]
        simp [hseg2, hworld2, createHighlightElement, DocElem.node]
      have hsur := HighlightRenderer.surround_multi_eq (by simp) hr1 hr2
      have hcoll : visitorCollect
          [DocElem.raw ⟨0, s0⟩, DocElem.raw ⟨1, s1⟩, DocElem.raw ⟨2, s2⟩] 0 2
          = [⟨1, s1⟩] := by
        simp [visitorCollect, DocElem.node]
      refine ⟨[⟨3, s0⟩, ⟨1, s1⟩, ⟨4, s2.take (b + 1)⟩],
        ⟨s0 ++ s1 ++ s2, [⟨⟨3, s0⟩, 0⟩, ⟨⟨1, s1⟩, s0.length⟩,
          ⟨⟨4, s2.take (b + 1)⟩, s0.length + s1.length⟩,
          ⟨⟨5, s2.drop (b + 1)⟩, s0.length + s1.length + (b + 1)⟩]⟩,
        ⟨[.wrapped ⟨3, s0⟩, .wrapped ⟨1, s1⟩, .wrapped ⟨4, s2.take (b + 1)⟩,
          .raw ⟨5, s2.drop (b + 1)⟩], 6⟩,
        ?_, rfl, ?_, ?_, ?_⟩
      · rw [hsur]
        simp [hcoll]
      · simp
      · simpa using hspan
      · simp [List.filterMap]
    · have hseg2 : truncSeg ⟨⟨2, s2⟩, s0.length + s1.length⟩ 4 0 b
          = [⟨⟨4, s2.take (b + 1)⟩, s0.length + s1.length⟩] := by
        simp [truncSeg, hB]
      have hworld2 : truncWorld ⟨⟨2, s2⟩, s0.length + s1.length⟩
          ⟨[.wrapped ⟨3, s0⟩, .wrapped ⟨1, s1⟩, .raw ⟨2, s2⟩], 4⟩ 0 b
          = ⟨[.wrapped ⟨3, s0⟩, .wrapped ⟨1, s1⟩, .raw ⟨4, s2.take (b + 1)⟩], 5⟩ := by
        simp [truncWorld, hB, insertBeforeId, insertAfterId, removeById, DocElem.node]
      have hr2 : HighlightRenderer.surroundOne
          ⟨s0 ++ s1 ++ s2, [⟨⟨3, s0⟩, 0⟩, ⟨⟨1, s1⟩, s0.length⟩,
            ⟨⟨2, s2⟩, s0.length + s1.length⟩]⟩
          ⟨[.wrapped ⟨3, s0⟩, .wrapped ⟨1, s1⟩, .raw ⟨2, s2⟩], 4⟩
          ⟨⟨⟨2, s2⟩, s0.length + s1.length⟩, b⟩ (0 : Int) (some ((b : Nat) : Int))
          = .ok (⟨4, s2.take (b + 1)⟩,
              ⟨s0 ++ s1 ++ s2, [⟨⟨3, s0⟩, 0⟩, ⟨⟨1, s1⟩, s0.length⟩,
                ⟨⟨4, s2.take (b + 1)⟩, s0.length + s1.length⟩]⟩,
              ⟨[.wrapped ⟨3, s0⟩, .wrapped ⟨1, s1⟩,
                .wrapped ⟨4, s2.take (b + 1)⟩], 5⟩) := by
        rw [@HighlightRenderer.surroundOne_eq
          ⟨s0 ++ s1 ++ s2, [⟨⟨3, s0⟩, 0⟩, ⟨⟨1, s1⟩, s0.length⟩,
            ⟨⟨2, s2⟩, s0.length + s1.length⟩]⟩
          ⟨[.wrapped ⟨3, s0⟩, .wrapped ⟨1, s1⟩, .raw ⟨2, s2⟩], 4⟩
          ⟨⟨⟨2, s2⟩, s0.length + s1.length⟩, b⟩ (0 : Int) (some ((b : Nat) : Int)) _ htr2]
        simp [hseg2, hworld2, createHighlightElement, DocElem.node]
      have hsur := HighlightRenderer.surround_multi_eq (by simp) hr1 hr2
      have hcoll : visitorCollect
          [DocElem.raw ⟨0, s0⟩, DocElem.raw ⟨1, s1⟩, DocElem.raw ⟨2, s2⟩] 0 2
          = [⟨1, s1⟩] := by
        simp [visitorCollect, DocElem.node]
      refine ⟨[⟨3, s0⟩, ⟨1, s1⟩, ⟨4, s2.take (b + 1)⟩],
        ⟨s0 ++ s1 ++ s2, [⟨⟨3, s0⟩, 0⟩, ⟨⟨1, s1⟩, s0.length⟩,
          ⟨⟨4, s2.take (b + 1)⟩, s0.length + s1.length⟩]⟩,
        ⟨[.wrapped ⟨3, s0⟩, .wrapped ⟨1, s1⟩, .wrapped ⟨4, s2.take (b + 1)⟩], 5⟩,
        ?_, rfl, ?_, ?_, ?_⟩
      · rw [hsur]
        simp [hcoll]
      · simp
      · simpa using hspan
      · simp [List.filterMap]

/-- Witness for C4 at a concrete input: wrapping `[1, 0]` across the three
nodes `"ab"`, `"c"`, `"de"`. -/
theorem claim_C4_witness :
    (['a', 'b'] : Str) ≠ [] ∧ (['c'] : Str) ≠ [] ∧ (['d', 'e'] : Str) ≠ [] ∧
    1 < (['a', 'b'] : Str).length ∧ 0 < (['d', 'e'] : Str).length ∧
    (∃ elems tc' w',
      HighlightRenderer.surround
          (TextContent.parse
            (.element "P" [.text ⟨0, ['a', 'b']⟩, .text ⟨1, ['c']⟩,
              .text ⟨2, ['d', 'e']⟩]))
          ⟨[.raw ⟨0, ['a', 'b']⟩, .raw ⟨1, ['c']⟩, .raw ⟨2, ['d', 'e']⟩], 3⟩
          ⟨⟨⟨⟨⟨0, ['a', 'b']⟩, 0⟩, 1⟩,
            ⟨⟨⟨2, ['d', 'e']⟩, (['a', 'b'] : Str).length + (['c'] : Str).length⟩, 0⟩⟩⟩
        = .ok (elems, tc', w', 1) ∧
      elems.length = 3 ∧
      elems.map (fun n => n.value)
        = [(['a', 'b'] : Str).drop 1, ['c'], (['d', 'e'] : Str).take (0 + 1)] ∧
      (['a', 'b'] : Str).drop 1 ++ ['c'] ++ (['d', 'e'] : Str).take (0 + 1)
        = ((TextContent.parse
              (.element "P" [.text ⟨0, ['a', 'b']⟩, .text ⟨1, ['c']⟩,
                .text ⟨2, ['d', 'e']⟩])).text.drop 1).take
            ((['a', 'b'] : Str).length - 1 + (['c'] : Str).length + (0 + 1)) ∧
      w'.doc.filterMap (fun e => match e with
        | .wrapped n => some n
        | .raw _ => none) = elems) :=
  ⟨by decide, by decide, by decide, by decide, by decide,
   claim_C4_multi_node_wrap ['a', 'b'] ['c'] ['d', 'e'] 1 0
     (by decide) (by decide) (by decide) (by decide) (by decide)⟩
